import Mathlib

/-!
# Verification of the bouncing-ball simulation and audio-segment engine

Shallow embedding of the repository's core code:

* `Sim` and its operations embed `src/src/CircleSimulation.ts` — the
  per-frame physics tick (`update`, lines 214-286), the tuning setters
  (lines 198-212), the drag handlers (lines 374-399) and the recording
  lifecycle (lines 116-181).
* `AMState` and its operations embed the `AudioManager` class
  (`src/unnamed/part_001`) — segment splitting (lines 79-106), track
  re-processing (lines 27-72), file processing (lines 108-139) and
  collision-triggered playback (lines 180-222).

JavaScript `number` values are embedded as exact reals (`ℝ`) for the
physics and exact rationals (`ℚ`) for the audio engine; `Math.sqrt`
becomes `Real.sqrt`.  Division by zero denotes `0` in this model (the
divergence from IEEE NaN is noted at the places where it matters).
Web-IDL coercions of fractional JS numbers to buffer indices/lengths
truncate, embedded as `Int.floor`/`Int.toNat`.
-/

/-! ## Physics: `CircleSimulation` -/

/-- The mutable fields of the `CircleSimulation` class that take part in the
physics, plus the readonly canvas dimensions fixed at construction. -/
structure Sim where
  WIDTH : ℝ
  HEIGHT : ℝ
  GRAVITY : ℝ
  VELOCITY_INCREASE_FACTOR : ℝ
  VELOCITY_DECAY : ℝ
  BALL_GROWTH_RATE : ℝ
  ballRadius : ℝ
  ballCenter : ℝ × ℝ
  ballVelocity : ℝ × ℝ
  collisionPoints : List (ℝ × ℝ)
  previousPositions : List (ℝ × ℝ)
  running : Bool
  isDragging : Bool
  startTime : ℝ
  elapsedTime : ℝ

/-- `INITIAL_BALL_RADIUS = 5` (line 24). -/
def INITIAL_BALL_RADIUS : ℝ := 5

/-- `CIRCLE_RADIUS = Math.min(WIDTH, HEIGHT) / 2 - 125` (line 57). -/
noncomputable def Sim.CIRCLE_RADIUS (s : Sim) : ℝ := min s.WIDTH s.HEIGHT / 2 - 125

/-- `MAX_BALL_RADIUS = CIRCLE_RADIUS * 1.5` (line 58). -/
noncomputable def Sim.MAX_BALL_RADIUS (s : Sim) : ℝ := s.CIRCLE_RADIUS * 1.5

/-- Constructor (lines 41-72) followed by `reset()` (lines 187-196): ball at
`(WIDTH/2, HEIGHT/2.7)` with radius 5 and velocity `(0.8, 0.8)`, default
tuning constants from lines 26-29. -/
noncomputable def Sim.init (W H : ℝ) : Sim :=
  { WIDTH := W, HEIGHT := H, GRAVITY := 0.4, VELOCITY_INCREASE_FACTOR := 1.02,
    VELOCITY_DECAY := 0.9995, BALL_GROWTH_RATE := 1.015,
    ballRadius := INITIAL_BALL_RADIUS, ballCenter := (W / 2, H / 2.7),
    ballVelocity := (0.8, 0.8), collisionPoints := [], previousPositions := [],
    running := false, isDragging := false, startTime := 0, elapsedTime := 0 }

/-- `setGravity` (lines 198-200). -/
def Sim.setGravity (v : ℝ) (s : Sim) : Sim := { s with GRAVITY := v }

/-- `setVelocityIncrease` (lines 202-204): stores `1 + value`. -/
def Sim.setVelocityIncrease (v : ℝ) (s : Sim) : Sim :=
  { s with VELOCITY_INCREASE_FACTOR := 1 + v }

/-- `setVelocityDecay` (lines 206-208). -/
def Sim.setVelocityDecay (v : ℝ) (s : Sim) : Sim := { s with VELOCITY_DECAY := v }

/-- `setBallGrowthRate` (lines 210-212): stores `1 + value`. -/
def Sim.setBallGrowthRate (v : ℝ) (s : Sim) : Sim :=
  { s with BALL_GROWTH_RATE := 1 + v }

/-- Lines 218-221: bounded motion-blur history, `shift` then `push` of the
pre-integration center. -/
def Sim.pushTrail (s : Sim) : List (ℝ × ℝ) :=
  (if 5 ≤ s.previousPositions.length then s.previousPositions.tail
   else s.previousPositions) ++ [s.ballCenter]

/-- Lines 224-226: `vy += GRAVITY`, then both axes `*= VELOCITY_DECAY`. -/
def Sim.integratedVelocity (s : Sim) : ℝ × ℝ :=
  (s.ballVelocity.1 * s.VELOCITY_DECAY, (s.ballVelocity.2 + s.GRAVITY) * s.VELOCITY_DECAY)

/-- Lines 227-228: `center += velocity` (with the already-updated velocity). -/
def Sim.integratedCenter (s : Sim) : ℝ × ℝ :=
  (s.ballCenter.1 + s.integratedVelocity.1, s.ballCenter.2 + s.integratedVelocity.2)

/-- Line 231: the boundary circle center `(WIDTH/2, HEIGHT/2)`. -/
noncomputable def Sim.circleCenter (s : Sim) : ℝ × ℝ := (s.WIDTH / 2, s.HEIGHT / 2)

/-- Lines 232-233: `(dx, dy)` from the boundary center to the integrated
ball center. -/
noncomputable def Sim.collisionDelta (s : Sim) : ℝ × ℝ :=
  (s.integratedCenter.1 - s.circleCenter.1, s.integratedCenter.2 - s.circleCenter.2)

/-- Line 234: `distance = Math.sqrt(dx*dx + dy*dy)`. -/
noncomputable def Sim.distToCC (s : Sim) : ℝ :=
  Real.sqrt (s.collisionDelta.1 * s.collisionDelta.1 + s.collisionDelta.2 * s.collisionDelta.2)

/-- Line 236: the collision branch is entered when
`distance >= CIRCLE_RADIUS - ballRadius`. -/
def Sim.collides (s : Sim) : Prop := s.CIRCLE_RADIUS - s.ballRadius ≤ s.distToCC

/-- Lines 238-239: `(nx, ny) = (dx/distance, dy/distance)`.  There is no
guard for `distance = 0`: in this exact model `dx/0 = 0` so the "normal"
becomes the zero vector (in JavaScript it would be `NaN`). -/
noncomputable def Sim.collisionNormal (s : Sim) : ℝ × ℝ :=
  (s.collisionDelta.1 / s.distToCC, s.collisionDelta.2 / s.distToCC)

/-- Lines 240-244: reflect the velocity about the normal and scale by the
restitution `0.95`. -/
noncomputable def Sim.reflectedVelocity (s : Sim) : ℝ × ℝ :=
  let v1 := s.integratedVelocity
  let n := s.collisionNormal
  let dot := v1.1 * n.1 + v1.2 * n.2
  ((v1.1 - 2 * dot * n.1) * 0.95, (v1.2 - 2 * dot * n.2) * 0.95)

open Classical in
/-- Lines 247-252: grow the radius, clamped at `MAX_BALL_RADIUS`. -/
noncomputable def Sim.grownRadius (s : Sim) : ℝ :=
  if s.ballRadius < s.MAX_BALL_RADIUS then
    min (s.ballRadius * s.BALL_GROWTH_RATE) s.MAX_BALL_RADIUS
  else s.ballRadius

/-- Lines 255-256: `velocity *= VELOCITY_INCREASE_FACTOR`. -/
noncomputable def Sim.boostedVelocity (s : Sim) : ℝ × ℝ :=
  (s.reflectedVelocity.1 * s.VELOCITY_INCREASE_FACTOR,
   s.reflectedVelocity.2 * s.VELOCITY_INCREASE_FACTOR)

open Classical in
/-- Lines 258-265: if the speed is below `minVelocity = 1.0`, rescale by
`minVelocity / currentVelocity`.  When the speed is exactly `0` the scale is
`1/0` (`Infinity` in JavaScript, yielding `NaN`; `0` in this model). -/
noncomputable def Sim.flooredVelocity (s : Sim) : ℝ × ℝ :=
  let v3 := s.boostedVelocity
  let cur := Real.sqrt (v3.1 ^ 2 + v3.2 ^ 2)
  if cur < 1 then (v3.1 * (1 / cur), v3.2 * (1 / cur)) else v3

open Classical in
/-- `Math.cos(Math.atan2(dy, dx))`: equals `dx/distance` when the delta is
nonzero, and `cos 0 = 1` when `dx = dy = 0` (`Math.atan2(0,0) = 0`). -/
noncomputable def Sim.cosAngle (s : Sim) : ℝ :=
  if s.distToCC = 0 then 1 else s.collisionDelta.1 / s.distToCC

open Classical in
/-- `Math.sin(Math.atan2(dy, dx))`: `dy/distance`, and `sin 0 = 0` at the
zero delta. -/
noncomputable def Sim.sinAngle (s : Sim) : ℝ :=
  if s.distToCC = 0 then 0 else s.collisionDelta.2 / s.distToCC

/-- Lines 268-270: the decal point on the boundary circle. -/
noncomputable def Sim.collisionPt (s : Sim) : ℝ × ℝ :=
  (s.circleCenter.1 + s.CIRCLE_RADIUS * s.cosAngle,
   s.circleCenter.2 + s.CIRCLE_RADIUS * s.sinAngle)

/-- Lines 273-276: bounded collision-point history (capacity 50). -/
noncomputable def Sim.pushDecal (s : Sim) : List (ℝ × ℝ) :=
  (if 50 ≤ s.collisionPoints.length then s.collisionPoints.tail
   else s.collisionPoints) ++ [s.collisionPt]

/-- Lines 279-280: project the center back to the circle of radius
`CIRCLE_RADIUS - ballRadius` (with the already-grown radius). -/
noncomputable def Sim.resolvedCenter (s : Sim) : ℝ × ℝ :=
  (s.circleCenter.1 + (s.CIRCLE_RADIUS - s.grownRadius) * s.cosAngle,
   s.circleCenter.2 + (s.CIRCLE_RADIUS - s.grownRadius) * s.sinAngle)

/-- The non-collision tick result (lines 214-235 only). -/
noncomputable def Sim.integrateOnly (now : ℝ) (s : Sim) : Sim :=
  { s with elapsedTime := (now - s.startTime) / 1000,
           previousPositions := s.pushTrail,
           ballVelocity := s.integratedVelocity,
           ballCenter := s.integratedCenter }

open Classical in
/-- The whole physics tick `update()` (lines 214-286).  `now` is
`performance.now()`; it feeds only the displayed `elapsedTime`. -/
noncomputable def Sim.update (now : ℝ) (s : Sim) : Sim :=
  if s.collides then
    { s with elapsedTime := (now - s.startTime) / 1000,
             previousPositions := s.pushTrail,
             ballVelocity := s.flooredVelocity,
             ballRadius := s.grownRadius,
             ballCenter := s.resolvedCenter,
             collisionPoints := s.pushDecal }
  else Sim.integrateOnly now s

/-- A sequence of ticks at the given clock readings. -/
noncomputable def Sim.ticks (ts : List ℝ) (s : Sim) : Sim :=
  ts.foldl (fun a t => Sim.update t a) s

/-- `stop()` (lines 365-368): halt the tick scheduler. -/
def Sim.stopLoop (s : Sim) : Sim := { s with running := false }

/-- `start()` (lines 357-363): rebase the clock if not running, resume. -/
noncomputable def Sim.startLoop (now : ℝ) (s : Sim) : Sim :=
  { s with startTime := if s.running then s.startTime else now - s.elapsedTime * 1000,
           running := true }

open Classical in
/-- `handleMouseDown` (lines 374-383): inside the ball it sets `isDragging`
and calls `stop()`.  It does not touch the velocity. -/
noncomputable def Sim.handleMouseDown (x y : ℝ) (s : Sim) : Sim :=
  if Real.sqrt ((x - s.ballCenter.1) * (x - s.ballCenter.1) +
      (y - s.ballCenter.2) * (y - s.ballCenter.2)) ≤ s.ballRadius then
    Sim.stopLoop { s with isDragging := true }
  else s

/-- `handleMouseMove` (lines 385-392): while dragging, the center tracks the
pointer, the velocity is zeroed, and a `draw()` (render only, no physics
tick) happens; rendering has no simulation-state effect. -/
def Sim.handleMouseMove (x y : ℝ) (s : Sim) : Sim :=
  if s.isDragging then { s with ballCenter := (x, y), ballVelocity := (0, 0) } else s

/-- `handleMouseUp` (lines 394-399). -/
noncomputable def Sim.handleMouseUp (now : ℝ) (s : Sim) : Sim :=
  if s.isDragging then Sim.startLoop now { s with isDragging := false } else s

/-! ## Recording lifecycle: `setupRecording` / `startRecording` / `stopRecording`

The `MediaRecorder` objects allocated by `setupRecording` are modelled with
explicit identities (`Recorder.id`, drawn from an allocation counter), so
that replacing the tracked recorder by a fresh one is observable, exactly as
JavaScript object identity is.  A recorder that `cleanupResources` drops
(handlers nulled, field set to `null`, never `stop()`ped — lines 100-104)
is moved to `dropped`; nothing in the class ever stops it. -/

/-- `MediaRecorder.state` (the states this code inspects). -/
inductive RecState where
  | inactive
  | recording
deriving DecidableEq, Repr

/-- One `MediaRecorder` allocation. -/
structure Recorder where
  id : ℕ
  state : RecState
deriving DecidableEq, Repr

/-- The recording-related fields of `CircleSimulation`. -/
structure CaptureState where
  mediaRecorder : Option Recorder
  chunks : List ℕ
  hasOnComplete : Bool
  dropped : List Recorder
  nextRecorderId : ℕ
  pendingFinalize : Bool
deriving DecidableEq, Repr

/-- Field initializers (lines 4-5): no recorder, no chunks. -/
def CaptureState.mk0 : CaptureState :=
  { mediaRecorder := none, chunks := [], hasOnComplete := false,
    dropped := [], nextRecorderId := 0, pendingFinalize := false }

/-- `cleanupResources` (lines 83-114), restricted to the recording fields:
clears `chunks` and detaches the current recorder without stopping it.
(The same function also resets the ball radius/velocity and clears the
canvases; those effects live on the `Sim` side and do not interact with the
recording claims.) -/
def CaptureState.cleanupResources (s : CaptureState) : CaptureState :=
  match s.mediaRecorder with
  | none => { s with chunks := [] }
  | some r => { s with chunks := [], mediaRecorder := none, dropped := s.dropped ++ [r] }

/-- `setupRecording` (lines 116-165): cleanup, then construct a fresh
`MediaRecorder` (state `inactive`) over the captured stream. -/
def CaptureState.setupRecording (s : CaptureState) : CaptureState :=
  let s1 := s.cleanupResources
  { s1 with mediaRecorder := some { id := s1.nextRecorderId, state := .inactive },
            nextRecorderId := s1.nextRecorderId + 1 }

/-- `startRecording` (lines 167-175): always runs `setupRecording`, then
starts the (necessarily fresh and `inactive`) recorder. -/
def CaptureState.startRecording (hasCallback : Bool) (s : CaptureState) : CaptureState :=
  let s1 := s.setupRecording
  match s1.mediaRecorder with
  | some r =>
      if r.state = .inactive then
        { s1 with chunks := [], hasOnComplete := hasCallback,
                  mediaRecorder := some { r with state := .recording } }
      else s1
  | none => s1

/-- `stopRecording` (lines 177-181): request finalization only when the
tracked recorder is in the `recording` state; otherwise do nothing. -/
def CaptureState.stopRecording (s : CaptureState) : CaptureState :=
  match s.mediaRecorder with
  | some r =>
      if r.state = .recording then
        { s with mediaRecorder := some { r with state := .inactive }, pendingFinalize := true }
      else s
  | none => s

/-- Number of recorder allocations currently in the `recording` state,
including the ones `cleanupResources` dropped without stopping. -/
def CaptureState.activeRecorderCount (s : CaptureState) : ℕ :=
  ((s.dropped ++ s.mediaRecorder.toList).filter (fun r => r.state = .recording)).length

/-! ## Audio engine: `AudioManager` (`src/unnamed/part_001`) -/

/-- A decoded Web-Audio buffer: per-channel sample data at a sample rate.
`length` is the frame count `createBuffer` was called with. -/
structure AudioBuffer where
  numberOfChannels : ℕ
  length : ℕ
  sampleRate : ℚ
  channels : List (List ℚ)
deriving DecidableEq, Repr

/-- `AudioSegment` (`src/unnamed/part_000`): a slice buffer plus metadata. -/
structure AudioSegment where
  buffer : AudioBuffer
  startTime : ℚ
  duration : ℚ
deriving DecidableEq, Repr

/-- The loop of `splitAudioIntoSegments` (lines 84-103): `i` steps by
`samplesPerSegment = segmentDuration * sampleRate`, a JS number that is not
floored by the source; the Web-IDL coercions at `createBuffer` and
`TypedArray.slice` truncate it, embedded here as `Int.floor`/`toNat`.
`set` copies the slice into a zero-initialised buffer of `segmentLength`
frames.  Each produced segment records `startTime = i / sampleRate` and the
metadata field `duration = segmentDuration` (line 101) — also for the final
remainder segment. -/
def splitSegLoop (sps dur : ℚ) (buf : AudioBuffer) (i : ℚ) : List AudioSegment :=
  if h : 0 < sps ∧ i < (buf.length : ℚ) then
    let segLen : ℚ := min sps ((buf.length : ℚ) - i)
    let iN : ℕ := (Int.floor i).toNat
    let endN : ℕ := (Int.floor (i + segLen)).toNat
    let lenN : ℕ := (Int.floor segLen).toNat
    let segBuf : AudioBuffer :=
      { numberOfChannels := buf.numberOfChannels, length := lenN,
        sampleRate := buf.sampleRate,
        channels := buf.channels.map (fun ch =>
          (((ch.drop iN).take (endN - iN)) ++ List.replicate lenN 0).take lenN) }
    { buffer := segBuf, startTime := i / buf.sampleRate, duration := dur } ::
      splitSegLoop sps dur buf (i + sps)
  else []
termination_by (Int.ceil (((buf.length : ℚ) - i) / sps)).toNat
decreasing_by
  obtain ⟨hs, hi⟩ := h
  have h1 : (0 : ℚ) < ((buf.length : ℚ) - i) / sps := by
    apply div_pos (by linarith) hs
  have h2 : ((buf.length : ℚ) - (i + sps)) / sps = ((buf.length : ℚ) - i) / sps - 1 := by
    field_simp
    ring
  rw [h2, Int.ceil_sub_one]
  have h3 : 0 < Int.ceil (((buf.length : ℚ) - i) / sps) := Int.ceil_pos.mpr h1
  omega

/-- `splitAudioIntoSegments` (lines 79-106): split from offset 0 with
`samplesPerSegment = segmentDuration * sampleRate` (line 81). -/
def splitAudioIntoSegments (segmentDuration : ℚ) (buf : AudioBuffer) : List AudioSegment :=
  splitSegLoop (segmentDuration * buf.sampleRate) segmentDuration buf 0

/-- The `AudioManager` state fields (lines 2-14). -/
structure AMState where
  audioTracks : List (List AudioSegment)
  currentTrackIndex : ℕ
  segments : List AudioSegment
  currentSegmentIndex : ℕ
  isProcessing : Bool
  currentSource : Option Unit
  isPlaying : Bool
  segmentDuration : ℚ
  lastPlayStartTime : ℚ
deriving DecidableEq, Repr

/-- The constructor-time field values: no tracks, `segmentDuration = 0.3`,
`lastPlayStartTime = 0`. -/
def AMState.mk0 : AMState :=
  { audioTracks := [], currentTrackIndex := 0, segments := [],
    currentSegmentIndex := 0, isProcessing := false, currentSource := none,
    isPlaying := false, segmentDuration := 3 / 10, lastPlayStartTime := 0 }

/-- Reconstruction of a track's full buffer (lines 42-61 of
`reprocessTracks`): `createBuffer(channels, totalLength, sampleRate)` from
the first segment's metadata, then each segment's channel data copied in
order at a running offset — for the well-formed tracks this code produces,
the per-channel concatenation of the segments' channel data. -/
def concatTrackBuffer (track : List AudioSegment) : AudioBuffer :=
  match track with
  | [] => { numberOfChannels := 0, length := 0, sampleRate := 0, channels := [] }
  | first :: _ =>
    { numberOfChannels := first.buffer.numberOfChannels,
      length := (track.map (fun sg => sg.buffer.length)).sum,
      sampleRate := first.buffer.sampleRate,
      channels := (List.range first.buffer.numberOfChannels).map (fun c =>
        (track.map (fun sg => sg.buffer.channels.getD c [])).flatten) }

/-- `reprocessTracks` (lines 35-72): empty the track list, then for every
non-empty old track rebuild its full buffer and re-split it at the current
`segmentDuration`; the first rebuilt track becomes the active segment
list. -/
def AMState.reprocessTracks (s : AMState) : AMState :=
  s.audioTracks.foldl (fun acc track =>
      if 0 < track.length then
        let fullBuffer := concatTrackBuffer track
        let newSegments := splitAudioIntoSegments acc.segmentDuration fullBuffer
        let tracks' := acc.audioTracks ++ [newSegments]
        { acc with audioTracks := tracks',
                   segments := if tracks'.length = 1 then newSegments else acc.segments }
      else acc)
    { s with audioTracks := [], segments := [] }

/-- `setSegmentDuration` (lines 27-33): no-op unless `duration > 0`. -/
def AMState.setSegmentDuration (d : ℚ) (s : AMState) : AMState :=
  if 0 < d then AMState.reprocessTracks { s with segmentDuration := d } else s

/-- An uploaded file: its declared MIME type, and the decoded buffer the
external decode service would produce (`none` when decoding fails). -/
structure AudioFile where
  ftype : String
  decoded : Option AudioBuffer
deriving DecidableEq

/-- `isValidAudioFormat` (lines 74-77). -/
def isValidAudioFormat (f : AudioFile) : Bool :=
  ["audio/mp3", "audio/mpeg", "audio/wav", "audio/ogg"].contains f.ftype

/-- `MAX_TRACKS = 10` (line 14). -/
def MAX_TRACKS : ℕ := 10

/-- `processAudioFile` (lines 108-139): format check, capacity check, then
decode and split; the new track is appended, and becomes active when it is
the first.  The thrown errors are returned as `Except.error` together with
the state as the method leaves it. -/
def AMState.processAudioFile (f : AudioFile) (s : AMState) : AMState × Except String Unit :=
  if ¬ isValidAudioFormat f then
    (s, Except.error "Invalid audio format. Please upload MP3, WAV, or OGG files.")
  else if MAX_TRACKS ≤ s.audioTracks.length then
    (s, Except.error "Maximum number of tracks (10) reached. Remove some tracks before adding more.")
  else
    let s1 := { s with isProcessing := true }
    match f.decoded with
    | none => ({ s1 with isProcessing := false }, Except.error "Failed to process audio file")
    | some buf =>
      let newSegments := splitAudioIntoSegments s1.segmentDuration buf
      let tracks' := s1.audioTracks ++ [newSegments]
      ({ s1 with isProcessing := false, audioTracks := tracks',
                 segments := if tracks'.length = 1 then newSegments else s1.segments },
       Except.ok ())

/-- `playNextSegment` (lines 180-222), with `now = audioContext.currentTime`.
Returns the new state and whether a one-shot source was started.  The
early-return paths (no segments, decode in progress, rate limit) change
nothing.  On a trigger: the previous source is stopped, a new source plays
the segment at `currentSegmentIndex`, and `lastPlayStartTime := now`; the
segment index advances only in the `onended` handler (`sourceEnded`). -/
def AMState.playNextSegment (now : ℚ) (s : AMState) : AMState × Bool :=
  if s.segments.length = 0 ∨ s.isProcessing then (s, false)
  else if now - s.lastPlayStartTime < s.segmentDuration * (9 / 10) then (s, false)
  else
    ({ s with currentSource := some (), lastPlayStartTime := now, isPlaying := true }, true)

/-- The `source.onended` handler (lines 214-217): advance cyclically. -/
def AMState.sourceEnded (s : AMState) : AMState :=
  { s with isPlaying := false,
           currentSegmentIndex := (s.currentSegmentIndex + 1) % s.segments.length }

/-! ## Auxiliary definitions used by the theorems -/

open Classical in
/-- Modelled from the spec (§4.1 / §7): the collision-resolution velocity
pipeline — reflect about a given unit normal `n`, restitution `0.95`, boost,
minimum-speed floor — as it would run if the claimed zero-distance guard
substituted `n` (e.g. "the previous tick's normal") for the undefined
normal. -/
noncomputable def resolveVelocityWithNormal (s : Sim) (n : ℝ × ℝ) : ℝ × ℝ :=
  let v1 := s.integratedVelocity
  let dot := v1.1 * n.1 + v1.2 * n.2
  let v2 := ((v1.1 - 2 * dot * n.1) * 0.95, (v1.2 - 2 * dot * n.2) * 0.95)
  let v3 := (v2.1 * s.VELOCITY_INCREASE_FACTOR, v2.2 * s.VELOCITY_INCREASE_FACTOR)
  let cur := Real.sqrt (v3.1 ^ 2 + v3.2 ^ 2)
  if cur < 1 then (v3.1 * (1 / cur), v3.2 * (1 / cur)) else v3

/-- Modelled from the spec (§4.1): the post-collision reposition along a
given normal `n`, as the claimed guard would perform it. -/
noncomputable def repositionWithNormal (s : Sim) (n : ℝ × ℝ) : ℝ × ℝ :=
  (s.circleCenter.1 + (s.CIRCLE_RADIUS - s.grownRadius) * n.1,
   s.circleCenter.2 + (s.CIRCLE_RADIUS - s.grownRadius) * n.2)

/-- The slice lengths produced by cutting `r` frames into chunks of `m`
frames: the specification-level shape of a segment split. -/
def chunkLens (m r : ℕ) : List ℕ :=
  if h : 0 < m ∧ 0 < r then min m r :: chunkLens m (r - m) else []
termination_by r
decreasing_by omega

/-- A 1.0-second mono test buffer: 10 frames at 10 Hz. -/
def sampleBuffer : AudioBuffer :=
  { numberOfChannels := 1, length := 10, sampleRate := 10,
    channels := [[0, 1, 2, 3, 4, 5, 6, 7, 8, 9]] }

/-- A minimal already-split segment used by the playback examples. -/
def demoSegment : AudioSegment :=
  { buffer := { numberOfChannels := 1, length := 3, sampleRate := 10, channels := [[0, 0, 0]] },
    startTime := 0, duration := 3 / 10 }

/-- An `AudioManager` that has one active segment, default
`segmentDuration = 0.3` and initial `lastPlayStartTime = 0`. -/
def demoAM : AMState := { AMState.mk0 with segments := [demoSegment] }

/-- The C2/C7 example geometry: a 1080 × 1920 canvas, so
`CIRCLE_RADIUS = 415` and `MAX_BALL_RADIUS = 622.5`, ball velocity chosen
so the integrated velocity is exactly `(1, 0)`. -/
noncomputable def collideState : Sim :=
  { Sim.init 1080 1920 with ballCenter := (954, 960), ballVelocity := (2000 / 1999, -2 / 5) }

/-- A state whose integrated velocity is exactly `(0, 0)` while touching the
boundary: the collision branch runs with zero incoming speed. -/
noncomputable def stallState : Sim :=
  { Sim.init 1080 1920 with ballCenter := (955, 960), ballVelocity := (0, -2 / 5) }

/-- A state whose integrated center is exactly the boundary center while the
ball radius (500) exceeds `CIRCLE_RADIUS` (415): the collision branch runs
with `distance = 0`. -/
noncomputable def zeroDistState : Sim :=
  { Sim.init 1080 1920 with
      ballCenter := (539, 960), ballVelocity := (2000 / 1999, -2 / 5), ballRadius := 500 }

/-- The manager state after uploading the 1.0-second test buffer at the
default `segmentDuration = 0.3`: exactly what `processAudioFile` produces. -/
def loadedAM : AMState :=
  (AMState.processAudioFile { ftype := "audio/wav", decoded := some sampleBuffer } AMState.mk0).1

/-! ## Theorems -/

/-- C10: the public tuning setters `setVelocityIncrease` and
`setBallGrowthRate` store `1 + v` as the internal factor, so for
non-negative `v` the applied factors are `≥ 1`, while `setGravity` and
`setVelocityDecay` store `v` unchanged. -/
theorem C10_tuning_setters (s : Sim) (v : ℝ) :
    (Sim.setVelocityIncrease v s).VELOCITY_INCREASE_FACTOR = 1 + v ∧
    (Sim.setBallGrowthRate v s).BALL_GROWTH_RATE = 1 + v ∧
    (Sim.setGravity v s).GRAVITY = v ∧
    (Sim.setVelocityDecay v s).VELOCITY_DECAY = v ∧
    (0 ≤ v →
      1 ≤ (Sim.setVelocityIncrease v s).VELOCITY_INCREASE_FACTOR ∧
      1 ≤ (Sim.setBallGrowthRate v s).BALL_GROWTH_RATE) := by
  refine ⟨rfl, rfl, rfl, rfl, fun hv => ⟨?_, ?_⟩⟩ <;>
    · show (1 : ℝ) ≤ 1 + v
      linarith

/-- Witness for `C10_tuning_setters` at `v = 0.5` on the example canvas. -/
theorem C10_tuning_setters_witness :
    (0 : ℝ) ≤ 0.5 ∧
    1 ≤ (Sim.setVelocityIncrease 0.5 (Sim.init 1080 1920)).VELOCITY_INCREASE_FACTOR ∧
    1 ≤ (Sim.setBallGrowthRate 0.5 (Sim.init 1080 1920)).BALL_GROWTH_RATE :=
  ⟨by norm_num, (C10_tuning_setters (Sim.init 1080 1920) 0.5).2.2.2.2 (by norm_num)⟩

/-- C6: `processAudioFile` on a valid-format file with the store already at
`MAX_TRACKS` raises the capacity error and returns the state unchanged —
no track, active index or active segment list is modified. -/
theorem C6_capacity_error (f : AudioFile) (s : AMState)
    (hv : isValidAudioFormat f = true) (hcap : MAX_TRACKS ≤ s.audioTracks.length) :
    AMState.processAudioFile f s =
      (s, Except.error
        "Maximum number of tracks (10) reached. Remove some tracks before adding more.") := by
  unfold AMState.processAudioFile
  rw [hv]
  simp [hcap]

/-- Witness for `C6_capacity_error`: an 11th upload against 10 tracks. -/
theorem C6_capacity_error_witness :
    isValidAudioFormat ⟨"audio/wav", none⟩ = true ∧
    MAX_TRACKS ≤ ({ AMState.mk0 with audioTracks := List.replicate 10 [] } : AMState).audioTracks.length ∧
    AMState.processAudioFile ⟨"audio/wav", none⟩
        { AMState.mk0 with audioTracks := List.replicate 10 [] } =
      ({ AMState.mk0 with audioTracks := List.replicate 10 [] },
       Except.error
        "Maximum number of tracks (10) reached. Remove some tracks before adding more.") :=
  ⟨by decide, by simp [MAX_TRACKS],
   C6_capacity_error _ _ (by decide) (by simp [MAX_TRACKS])⟩

/-- C8 counterexample: starting while already recording is not a no-op.
From a fresh state, the second `startRecording` produces a different state
(a brand-new recorder is constructed and started), and the first recorder —
dropped by `cleanupResources` without ever being stopped — is still in the
`recording` state, so two live recording sessions exist, not one. -/
theorem C8_counterexample :
    CaptureState.startRecording true (CaptureState.startRecording true CaptureState.mk0) ≠
      CaptureState.startRecording true CaptureState.mk0 ∧
    CaptureState.activeRecorderCount
      (CaptureState.startRecording true (CaptureState.startRecording true CaptureState.mk0)) = 2 := by
  decide

/-- C8 (amended): `stopRecording` with no recorder in the `recording` state
is a no-op (so no finalization is ever requested and no completion callback
can fire); `startRecording` while a recording is active is *not* a no-op:
it discards the current recorder — without stopping it — and constructs and
starts a fresh one. -/
theorem C8_capture_lifecycle (s : CaptureState) (b : Bool) :
    ((∀ r, s.mediaRecorder = some r → r.state ≠ RecState.recording) →
      CaptureState.stopRecording s = s) ∧
    (∀ r, s.mediaRecorder = some r → r.state = RecState.recording →
      (CaptureState.startRecording b s).mediaRecorder =
          some ⟨s.nextRecorderId, RecState.recording⟩ ∧
        r ∈ (CaptureState.startRecording b s).dropped) := by
  constructor
  · intro hidle
    unfold CaptureState.stopRecording
    cases hr : s.mediaRecorder with
    | none => rfl
    | some r => simp [hidle r hr]
  · intro r hr _
    unfold CaptureState.startRecording CaptureState.setupRecording CaptureState.cleanupResources
    rw [hr]
    simp

/-- Witness for `C8_capture_lifecycle`: a state recording on recorder 5. -/
theorem C8_capture_lifecycle_witness :
    (CaptureState.startRecording true
        { CaptureState.mk0 with mediaRecorder := some ⟨5, RecState.recording⟩ }).mediaRecorder =
      some ⟨0, RecState.recording⟩ ∧
    (⟨5, RecState.recording⟩ : Recorder) ∈
      (CaptureState.startRecording true
        { CaptureState.mk0 with mediaRecorder := some ⟨5, RecState.recording⟩ }).dropped ∧
    CaptureState.stopRecording CaptureState.mk0 = CaptureState.mk0 := by
  refine ⟨?_, ?_, ?_⟩
  · exact ((C8_capture_lifecycle
      { CaptureState.mk0 with mediaRecorder := some ⟨5, RecState.recording⟩ } true).2
      ⟨5, RecState.recording⟩ rfl rfl).1
  · exact ((C8_capture_lifecycle
      { CaptureState.mk0 with mediaRecorder := some ⟨5, RecState.recording⟩ } true).2
      ⟨5, RecState.recording⟩ rfl rfl).2
  · exact (C8_capture_lifecycle CaptureState.mk0 true).1 (by intro r h; cases h)

/-- Early-return evaluation of `playNextSegment` when the rate limit bites. -/
theorem playNextSegment_noTrigger (now : ℚ) (s : AMState)
    (h1 : ¬ (s.segments.length = 0 ∨ s.isProcessing = true))
    (h2 : now - s.lastPlayStartTime < s.segmentDuration * (9 / 10)) :
    AMState.playNextSegment now s = (s, false) := by
  unfold AMState.playNextSegment
  rw [if_neg h1, if_pos h2]

/-- Trigger-path evaluation of `playNextSegment`. -/
theorem playNextSegment_trigger (now : ℚ) (s : AMState)
    (h1 : ¬ (s.segments.length = 0 ∨ s.isProcessing = true))
    (h2 : ¬ now - s.lastPlayStartTime < s.segmentDuration * (9 / 10)) :
    AMState.playNextSegment now s =
      ({ s with currentSource := some (), lastPlayStartTime := now, isPlaying := true }, true) := by
  unfold AMState.playNextSegment
  rw [if_neg h1, if_neg h2]

/-- C3 counterexample: with the code's initial `lastPlayStartTime = 0`,
collision events at `t = 0.0` and `t = 0.1` (segmentDuration `0.3`) produce
exactly zero triggers, not one: the first event is itself rate-limited. -/
theorem C3_counterexample :
    (AMState.playNextSegment 0 demoAM).2 = false ∧
    (AMState.playNextSegment (1 / 10) (AMState.playNextSegment 0 demoAM).1).2 = false := by
  have hA : AMState.playNextSegment 0 demoAM = (demoAM, false) :=
    playNextSegment_noTrigger 0 demoAM (by simp [demoAM, AMState.mk0])
      (by norm_num [demoAM, AMState.mk0])
  have hB : AMState.playNextSegment (1 / 10) demoAM = (demoAM, false) :=
    playNextSegment_noTrigger (1 / 10) demoAM (by simp [demoAM, AMState.mk0])
      (by norm_num [demoAM, AMState.mk0])
  rw [hA]
  exact ⟨rfl, by rw [hB]⟩

/-- C3 (amended): with a non-empty segment list and no decode in progress,
`playNextSegment` starts a trigger iff `now − lastPlayStartTime ≥
0.9 × segmentDuration`, and otherwise changes nothing (in particular
`lastPlayStartTime` and `currentSegmentIndex` are unchanged).  Events at
`t = 0.0, 0.1` yield zero triggers (see the counterexample); events at
`t = 0.3, 0.4` yield exactly one. -/
theorem C3_rate_limiting (now : ℚ) (s : AMState)
    (hne : s.segments.length ≠ 0) (hproc : s.isProcessing = false) :
    ((AMState.playNextSegment now s).2 = true ↔
      s.segmentDuration * (9 / 10) ≤ now - s.lastPlayStartTime) ∧
    ((AMState.playNextSegment now s).2 = false → (AMState.playNextSegment now s).1 = s) ∧
    (AMState.playNextSegment (3 / 10) demoAM).2 = true ∧
    (AMState.playNextSegment (4 / 10) (AMState.playNextSegment (3 / 10) demoAM).1).2 = false := by
  have h1 : ¬ (s.segments.length = 0 ∨ s.isProcessing = true) := by simp [hne, hproc]
  have hd1 : ¬ (demoAM.segments.length = 0 ∨ demoAM.isProcessing = true) := by
    simp [demoAM, AMState.mk0]
  have h3 : AMState.playNextSegment (3 / 10) demoAM =
      ({ demoAM with
          currentSource := some (), lastPlayStartTime := 3 / 10, isPlaying := true }, true) :=
    playNextSegment_trigger (3 / 10) demoAM hd1 (by norm_num [demoAM, AMState.mk0])
  refine ⟨?_, ?_, by rw [h3], ?_⟩
  · by_cases hlt : now - s.lastPlayStartTime < s.segmentDuration * (9 / 10)
    · rw [playNextSegment_noTrigger now s h1 hlt]
      simpa using not_le.mpr hlt
    · rw [playNextSegment_trigger now s h1 hlt]
      simpa using not_lt.mp hlt
  · intro h
    by_cases hlt : now - s.lastPlayStartTime < s.segmentDuration * (9 / 10)
    · rw [playNextSegment_noTrigger now s h1 hlt]
    · rw [playNextSegment_trigger now s h1 hlt] at h
      simp at h
  · rw [h3]
    have h4 : AMState.playNextSegment (4 / 10)
        ({ demoAM with
            currentSource := some (), lastPlayStartTime := 3 / 10, isPlaying := true } : AMState) =
        (({ demoAM with
            currentSource := some (), lastPlayStartTime := 3 / 10, isPlaying := true } : AMState),
         false) :=
      playNextSegment_noTrigger _ _ (by simp [demoAM, AMState.mk0])
        (by norm_num [demoAM, AMState.mk0])
    rw [h4]

/-- Witness for `C3_rate_limiting` at `now = 0.3` on the demo manager. -/
theorem C3_rate_limiting_witness :
    demoAM.segments.length ≠ 0 ∧ demoAM.isProcessing = false ∧
    ((AMState.playNextSegment (3 / 10) demoAM).2 = true ↔
      demoAM.segmentDuration * (9 / 10) ≤ 3 / 10 - demoAM.lastPlayStartTime) :=
  ⟨by decide, rfl, (C3_rate_limiting (3 / 10) demoAM (by decide) rfl).1⟩

/-- Evaluation helper: `Real.sqrt a = b` from `b * b = a`, `0 ≤ b`. -/
theorem sqrt_eval (a b : ℝ) (hb : 0 ≤ b) (h : b * b = a) : Real.sqrt a = b := by
  rw [← h, Real.sqrt_mul_self hb]

/-- A pointer press exactly at the ball center of the freshly constructed
1080 × 1920 simulation lands inside the ball. -/
theorem init_center_press_inside :
    Real.sqrt ((540 - (Sim.init 1080 1920).ballCenter.1) * (540 - (Sim.init 1080 1920).ballCenter.1) +
      ((1920 / 2.7 : ℝ) - (Sim.init 1080 1920).ballCenter.2) *
        ((1920 / 2.7 : ℝ) - (Sim.init 1080 1920).ballCenter.2)) ≤
      (Sim.init 1080 1920).ballRadius := by
  have h : (540 - (Sim.init 1080 1920).ballCenter.1) * (540 - (Sim.init 1080 1920).ballCenter.1) +
      ((1920 / 2.7 : ℝ) - (Sim.init 1080 1920).ballCenter.2) *
        ((1920 / 2.7 : ℝ) - (Sim.init 1080 1920).ballCenter.2) = 0 := by
    simp only [Sim.init]
    norm_num
  rw [h, Real.sqrt_zero]
  simp only [Sim.init, INITIAL_BALL_RADIUS]
  norm_num

/-- C9 counterexample: a press inside the ball enters `Dragging` but does
*not* zero the velocity — `handleMouseDown` only sets the flag and halts the
scheduler; the velocity stays `(0.8, 0.8)`. -/
theorem C9_counterexample :
    (Sim.handleMouseDown 540 (1920 / 2.7) (Sim.init 1080 1920)).isDragging = true ∧
    (Sim.handleMouseDown 540 (1920 / 2.7) (Sim.init 1080 1920)).ballVelocity = (0.8, 0.8) ∧
    ((0.8, 0.8) : ℝ × ℝ) ≠ ((0, 0) : ℝ × ℝ) := by
  unfold Sim.handleMouseDown
  rw [if_pos init_center_press_inside]
  refine ⟨rfl, rfl, ?_⟩
  intro hEq
  have h1 := congrArg Prod.fst hEq
  norm_num at h1

/-- C9 (amended): a pointer press within `radius` of the ball center sets
`isDragging` and halts the tick scheduler (`running := false`) while leaving
both the velocity and the center unchanged; every subsequent pointer move
while dragging sets the center to the pointer position and zeroes the
velocity, with no physics tick. -/
theorem C9_drag_interaction (x y : ℝ) (s : Sim)
    (h : Real.sqrt ((x - s.ballCenter.1) * (x - s.ballCenter.1) +
        (y - s.ballCenter.2) * (y - s.ballCenter.2)) ≤ s.ballRadius) :
    (Sim.handleMouseDown x y s).isDragging = true ∧
    (Sim.handleMouseDown x y s).running = false ∧
    (Sim.handleMouseDown x y s).ballVelocity = s.ballVelocity ∧
    (Sim.handleMouseDown x y s).ballCenter = s.ballCenter ∧
    (∀ (a b : ℝ) (s' : Sim), s'.isDragging = true →
      Sim.handleMouseMove a b s' =
        { s' with ballCenter := (a, b), ballVelocity := (0, 0) }) := by
  unfold Sim.handleMouseDown
  rw [if_pos h]
  refine ⟨rfl, rfl, rfl, rfl, fun a b s' hd => ?_⟩
  unfold Sim.handleMouseMove
  rw [if_pos hd]

/-- Witness for `C9_drag_interaction`: the center press on the fresh
simulation. -/
theorem C9_drag_interaction_witness :
    (Sim.handleMouseDown 540 (1920 / 2.7) (Sim.init 1080 1920)).isDragging = true ∧
    (Sim.handleMouseDown 540 (1920 / 2.7) (Sim.init 1080 1920)).running = false ∧
    (Sim.handleMouseDown 540 (1920 / 2.7) (Sim.init 1080 1920)).ballVelocity =
      (Sim.init 1080 1920).ballVelocity :=
  ⟨(C9_drag_interaction 540 (1920 / 2.7) (Sim.init 1080 1920) init_center_press_inside).1,
   (C9_drag_interaction 540 (1920 / 2.7) (Sim.init 1080 1920) init_center_press_inside).2.1,
   (C9_drag_interaction 540 (1920 / 2.7) (Sim.init 1080 1920) init_center_press_inside).2.2.1⟩

/-- `Sim.ticks` unfolding step. -/
theorem ticks_cons (t : ℝ) (ts : List ℝ) (s : Sim) :
    Sim.ticks (t :: ts) s = Sim.ticks ts (Sim.update t s) := rfl

open Classical in
/-- The tick's radius result: grown on collision, untouched otherwise. -/
theorem update_ballRadius (now : ℝ) (s : Sim) :
    (Sim.update now s).ballRadius = if s.collides then s.grownRadius else s.ballRadius := by
  by_cases h : s.collides
  · unfold Sim.update
    rw [if_pos h, if_pos h]
  · unfold Sim.update Sim.integrateOnly
    rw [if_neg h, if_neg h]

/-- The tick never changes the canvas dimensions or the growth factor. -/
theorem update_fields (now : ℝ) (s : Sim) :
    (Sim.update now s).WIDTH = s.WIDTH ∧ (Sim.update now s).HEIGHT = s.HEIGHT ∧
    (Sim.update now s).BALL_GROWTH_RATE = s.BALL_GROWTH_RATE := by
  unfold Sim.update Sim.integrateOnly
  split
  · exact ⟨rfl, rfl, rfl⟩
  · exact ⟨rfl, rfl, rfl⟩

/-- Hence the radius cap is constant across ticks. -/
theorem update_MAX (now : ℝ) (s : Sim) :
    (Sim.update now s).MAX_BALL_RADIUS = s.MAX_BALL_RADIUS := by
  unfold Sim.MAX_BALL_RADIUS Sim.CIRCLE_RADIUS
  rw [(update_fields now s).1, (update_fields now s).2.1]

/-- Line 247-252 growth is monotone and clamped when the factor is `≥ 1`. -/
theorem grownRadius_bounds (s : Sim) (hg : 1 ≤ s.BALL_GROWTH_RATE) (h0 : 0 ≤ s.ballRadius)
    (hhi : s.ballRadius ≤ s.MAX_BALL_RADIUS) :
    s.ballRadius ≤ s.grownRadius ∧ s.grownRadius ≤ s.MAX_BALL_RADIUS := by
  unfold Sim.grownRadius
  split
  · exact ⟨le_min (le_mul_of_one_le_right h0 hg) hhi, min_le_right _ _⟩
  · exact ⟨le_rfl, hhi⟩

/-- One tick preserves the radius window and never shrinks the radius. -/
theorem radius_step (now : ℝ) (s : Sim) (hg : 1 ≤ s.BALL_GROWTH_RATE) (h0 : 0 ≤ s.ballRadius)
    (hhi : s.ballRadius ≤ s.MAX_BALL_RADIUS) :
    s.ballRadius ≤ (Sim.update now s).ballRadius ∧
    (Sim.update now s).ballRadius ≤ s.MAX_BALL_RADIUS := by
  rw [update_ballRadius]
  by_cases h : s.collides
  · rw [if_pos h]
    exact grownRadius_bounds s hg h0 hhi
  · rw [if_neg h]
    exact ⟨le_rfl, hhi⟩

/-- The radius invariant propagated through any tick sequence. -/
theorem ticks_radius_invariant (ts : List ℝ) : ∀ s : Sim, 1 ≤ s.BALL_GROWTH_RATE →
    INITIAL_BALL_RADIUS ≤ s.ballRadius → s.ballRadius ≤ s.MAX_BALL_RADIUS →
    1 ≤ (Sim.ticks ts s).BALL_GROWTH_RATE ∧
    (Sim.ticks ts s).MAX_BALL_RADIUS = s.MAX_BALL_RADIUS ∧
    INITIAL_BALL_RADIUS ≤ (Sim.ticks ts s).ballRadius ∧
    (Sim.ticks ts s).ballRadius ≤ s.MAX_BALL_RADIUS ∧
    s.ballRadius ≤ (Sim.ticks ts s).ballRadius := by
  induction ts with
  | nil => exact fun s h1 h2 h3 => ⟨h1, rfl, h2, h3, le_rfl⟩
  | cons t ts ih =>
    intro s h1 h2 h3
    simp only [ticks_cons]
    have h0 : 0 ≤ s.ballRadius := le_trans (by norm_num [INITIAL_BALL_RADIUS]) h2
    have hstep := radius_step t s h1 h0 h3
    have hg' : 1 ≤ (Sim.update t s).BALL_GROWTH_RATE := by
      rw [(update_fields t s).2.2]; exact h1
    have hmax' := update_MAX t s
    have h2' : INITIAL_BALL_RADIUS ≤ (Sim.update t s).ballRadius := le_trans h2 hstep.1
    have h3' : (Sim.update t s).ballRadius ≤ (Sim.update t s).MAX_BALL_RADIUS := by
      rw [hmax']; exact hstep.2
    have H := ih (Sim.update t s) hg' h2' h3'
    have hmono : (Sim.ticks ts (Sim.update t s)).ballRadius ≤ s.MAX_BALL_RADIUS := by
      have A := H.2.2.2.1
      rwa [hmax'] at A
    refine ⟨H.1, ?_, H.2.2.1, hmono, le_trans hstep.1 H.2.2.2.2⟩
    rw [H.2.1, hmax']

/-- C1: if the growth factor is `≥ 1` and the radius starts inside
`[INITIAL_BALL_RADIUS, MAX_BALL_RADIUS]` (as it does from `reset()` on any
canvas large enough that `INITIAL_BALL_RADIUS ≤ MAX_BALL_RADIUS`), then over
every sequence of physics ticks the radius is non-decreasing from tick to
tick and always stays in `[INITIAL_BALL_RADIUS, MAX_BALL_RADIUS]` —
growth is clamped at `MAX_BALL_RADIUS = CIRCLE_RADIUS * 1.5`. -/
theorem C1_radius_invariant (s : Sim) (hg : 1 ≤ s.BALL_GROWTH_RATE)
    (hlo : INITIAL_BALL_RADIUS ≤ s.ballRadius) (hhi : s.ballRadius ≤ s.MAX_BALL_RADIUS) :
    (∀ now : ℝ, s.ballRadius ≤ (Sim.update now s).ballRadius) ∧
    (∀ ts : List ℝ,
      INITIAL_BALL_RADIUS ≤ (Sim.ticks ts s).ballRadius ∧
      (Sim.ticks ts s).ballRadius ≤ s.MAX_BALL_RADIUS ∧
      ∀ now : ℝ, (Sim.ticks ts s).ballRadius ≤ (Sim.update now (Sim.ticks ts s)).ballRadius) := by
  have h5 : (0 : ℝ) ≤ INITIAL_BALL_RADIUS := by norm_num [INITIAL_BALL_RADIUS]
  constructor
  · exact fun now => (radius_step now s hg (le_trans h5 hlo) hhi).1
  · intro ts
    have H := ticks_radius_invariant ts s hg hlo hhi
    refine ⟨H.2.2.1, H.2.2.2.1, fun now => ?_⟩
    refine (radius_step now _ H.1 (le_trans h5 H.2.2.1) ?_).1
    rw [H.2.1]
    exact H.2.2.2.1

/-- Witness for `C1_radius_invariant`: the fresh 1080 × 1920 simulation,
where `MAX_BALL_RADIUS = 622.5` and the default growth factor is 1.015. -/
theorem C1_radius_invariant_witness :
    1 ≤ (Sim.init 1080 1920).BALL_GROWTH_RATE ∧
    INITIAL_BALL_RADIUS ≤ (Sim.init 1080 1920).ballRadius ∧
    (Sim.init 1080 1920).ballRadius ≤ (Sim.init 1080 1920).MAX_BALL_RADIUS ∧
    ∀ ts : List ℝ,
      INITIAL_BALL_RADIUS ≤ (Sim.ticks ts (Sim.init 1080 1920)).ballRadius ∧
      (Sim.ticks ts (Sim.init 1080 1920)).ballRadius ≤ (Sim.init 1080 1920).MAX_BALL_RADIUS := by
  have hmin : min (1080 : ℝ) 1920 = 1080 := min_eq_left (by norm_num)
  have h1 : 1 ≤ (Sim.init 1080 1920).BALL_GROWTH_RATE := by
    simp only [Sim.init]
    norm_num
  have h2 : INITIAL_BALL_RADIUS ≤ (Sim.init 1080 1920).ballRadius := le_rfl
  have h3 : (Sim.init 1080 1920).ballRadius ≤ (Sim.init 1080 1920).MAX_BALL_RADIUS := by
    simp only [Sim.init, Sim.MAX_BALL_RADIUS, Sim.CIRCLE_RADIUS, INITIAL_BALL_RADIUS, hmin]
    norm_num
  exact ⟨h1, h2, h3, fun ts =>
    ⟨((C1_radius_invariant _ h1 h2 h3).2 ts).1, ((C1_radius_invariant _ h1 h2 h3).2 ts).2.1⟩⟩

/-- `distance = 0` exactly when the integrated center sits on the boundary
center. -/
theorem distToCC_zero_iff (s : Sim) :
    s.distToCC = 0 ↔ s.collisionDelta.1 = 0 ∧ s.collisionDelta.2 = 0 := by
  unfold Sim.distToCC
  rw [Real.sqrt_eq_zero (add_nonneg (mul_self_nonneg _) (mul_self_nonneg _))]
  constructor
  · intro h
    have h1 := mul_self_nonneg s.collisionDelta.1
    have h2 := mul_self_nonneg s.collisionDelta.2
    constructor
    · exact mul_self_eq_zero.mp (by linarith)
    · exact mul_self_eq_zero.mp (by linarith)
  · rintro ⟨h1, h2⟩
    rw [h1, h2]
    ring

/-- `dx² + dy² = distance²`. -/
theorem sq_dist (s : Sim) :
    s.collisionDelta.1 ^ 2 + s.collisionDelta.2 ^ 2 = s.distToCC ^ 2 := by
  unfold Sim.distToCC
  rw [Real.sq_sqrt (add_nonneg (mul_self_nonneg _) (mul_self_nonneg _))]
  ring

/-- Away from `distance = 0` the computed collision normal is a unit
vector. -/
theorem normal_norm (s : Sim) (h : s.distToCC ≠ 0) :
    s.collisionNormal.1 ^ 2 + s.collisionNormal.2 ^ 2 = 1 := by
  unfold Sim.collisionNormal
  have hsq := sq_dist s
  field_simp
  linarith [hsq]

/-- Reflection by the computed normal scales the squared speed by exactly
`restitution² = 0.95²`, also in the zero-distance case where the "normal"
degenerates to `(0, 0)` and no reflection happens at all. -/
theorem reflected_norm_sq (s : Sim) :
    s.reflectedVelocity.1 ^ 2 + s.reflectedVelocity.2 ^ 2 =
      (0.95 : ℝ) ^ 2 * (s.integratedVelocity.1 ^ 2 + s.integratedVelocity.2 ^ 2) := by
  by_cases h : s.distToCC = 0
  · obtain ⟨h1, h2⟩ := (distToCC_zero_iff s).mp h
    simp only [Sim.reflectedVelocity, Sim.collisionNormal, h1, h2]
    simp [zero_div]
    ring
  · have hn := normal_norm s h
    simp only [Sim.reflectedVelocity]
    linear_combination ((0.95 : ℝ) ^ 2 * 4 *
      (s.integratedVelocity.1 * s.collisionNormal.1 +
        s.integratedVelocity.2 * s.collisionNormal.2) ^ 2) * hn

/-- Rescaling a nonzero vector by the reciprocal of its norm yields norm 1. -/
theorem rescale_norm (a b c : ℝ) (hc : c = Real.sqrt (a ^ 2 + b ^ 2)) (h0 : 0 < c) :
    Real.sqrt ((a * (1 / c)) ^ 2 + (b * (1 / c)) ^ 2) = 1 := by
  have h1 : (a * (1 / c)) ^ 2 + (b * (1 / c)) ^ 2 = (a ^ 2 + b ^ 2) * (1 / c) ^ 2 := by ring
  rw [h1, Real.sqrt_mul (by positivity), Real.sqrt_sq (one_div_nonneg.mpr h0.le), ← hc,
    mul_one_div, div_self (ne_of_gt h0)]

/-- The minimum-velocity floor yields speed `≥ 1` whenever the boosted speed
entering the check is nonzero. -/
theorem floored_speed_ge_one (s : Sim)
    (h : 0 < Real.sqrt (s.boostedVelocity.1 ^ 2 + s.boostedVelocity.2 ^ 2)) :
    1 ≤ Real.sqrt (s.flooredVelocity.1 ^ 2 + s.flooredVelocity.2 ^ 2) := by
  by_cases hlt : Real.sqrt (s.boostedVelocity.1 ^ 2 + s.boostedVelocity.2 ^ 2) < 1
  · have hf : s.flooredVelocity =
        (s.boostedVelocity.1 * (1 / Real.sqrt (s.boostedVelocity.1 ^ 2 + s.boostedVelocity.2 ^ 2)),
         s.boostedVelocity.2 *
          (1 / Real.sqrt (s.boostedVelocity.1 ^ 2 + s.boostedVelocity.2 ^ 2))) := by
      simp only [Sim.flooredVelocity]
      rw [if_pos hlt]
    rw [hf]
    exact (rescale_norm _ _ _ rfl h).ge
  · have hf : s.flooredVelocity = s.boostedVelocity := by
      simp only [Sim.flooredVelocity]
      rw [if_neg hlt]
    rw [hf]
    exact not_lt.mp hlt

/-- With a nonzero boost factor and nonzero integrated velocity, the speed
entering the floor check is positive. -/
theorem boosted_speed_pos (s : Sim) (hf : s.VELOCITY_INCREASE_FACTOR ≠ 0)
    (hv : s.integratedVelocity ≠ (0, 0)) :
    0 < Real.sqrt (s.boostedVelocity.1 ^ 2 + s.boostedVelocity.2 ^ 2) := by
  rw [Real.sqrt_pos]
  have hb : s.boostedVelocity.1 ^ 2 + s.boostedVelocity.2 ^ 2 =
      s.VELOCITY_INCREASE_FACTOR ^ 2 *
        (s.reflectedVelocity.1 ^ 2 + s.reflectedVelocity.2 ^ 2) := by
    simp only [Sim.boostedVelocity]
    ring
  rw [hb, reflected_norm_sq]
  have hvpos : 0 < s.integratedVelocity.1 ^ 2 + s.integratedVelocity.2 ^ 2 := by
    have hxy : s.integratedVelocity.1 ≠ 0 ∨ s.integratedVelocity.2 ≠ 0 := by
      by_contra hc
      push_neg at hc
      exact hv (Prod.ext hc.1 hc.2)
    rcases hxy with h | h <;> positivity
  have hf2 : 0 < s.VELOCITY_INCREASE_FACTOR ^ 2 :=
    lt_of_le_of_ne (sq_nonneg _) (Ne.symm (pow_ne_zero 2 hf))
  exact mul_pos hf2 (mul_pos (by norm_num) hvpos)

/-- C2 (amended): after every execution of the collision-resolution branch,
provided the integrated velocity entering the branch is nonzero and the
boost factor is nonzero, the resulting speed is at least 1.0 — the floor
rescales a sub-unit speed to exactly 1 with direction preserved.  (When the
incoming velocity is exactly zero, the floor divides by zero and fails: see
the counterexample.) -/
theorem C2_minimum_speed (now : ℝ) (s : Sim) (hcol : s.collides)
    (hf : s.VELOCITY_INCREASE_FACTOR ≠ 0) (hv : s.integratedVelocity ≠ (0, 0)) :
    1 ≤ Real.sqrt ((Sim.update now s).ballVelocity.1 ^ 2 +
      (Sim.update now s).ballVelocity.2 ^ 2) := by
  have hb : (Sim.update now s).ballVelocity = s.flooredVelocity := by
    unfold Sim.update
    rw [if_pos hcol]
  rw [hb]
  exact floored_speed_ge_one s (boosted_speed_pos s hf hv)

/-- `collideState` integrates to velocity exactly `(1, 0)`. -/
theorem collideState_v1 : Sim.integratedVelocity collideState = (1, 0) := by
  have hv : collideState.ballVelocity = (2000 / 1999, -2 / 5) := rfl
  have hG : collideState.GRAVITY = 0.4 := rfl
  have hD : collideState.VELOCITY_DECAY = 0.9995 := rfl
  simp only [Sim.integratedVelocity, hv, hG, hD]
  norm_num [Prod.ext_iff]

/-- `collideState` integrates to the point `(955, 960)` on the boundary. -/
theorem collideState_delta : Sim.collisionDelta collideState = (415, 0) := by
  have hbc : collideState.ballCenter = (954, 960) := rfl
  have hc1 : Sim.integratedCenter collideState = (955, 960) := by
    simp only [Sim.integratedCenter, collideState_v1, hbc]
    norm_num [Prod.ext_iff]
  have hW : collideState.WIDTH = 1080 := rfl
  have hH : collideState.HEIGHT = 1920 := rfl
  simp only [Sim.collisionDelta, hc1, Sim.circleCenter, hW, hH]
  norm_num [Prod.ext_iff]

/-- The collision distance of `collideState` is exactly 415. -/
theorem collideState_dist : Sim.distToCC collideState = 415 := by
  unfold Sim.distToCC
  rw [collideState_delta]
  show Real.sqrt ((415 : ℝ) * 415 + 0 * 0) = 415
  exact sqrt_eval _ _ (by norm_num) (by norm_num)

/-- The 1080 × 1920 canvas gives `CIRCLE_RADIUS = 415`. -/
theorem collideState_R : collideState.CIRCLE_RADIUS = 415 := by
  unfold Sim.CIRCLE_RADIUS
  have hW : collideState.WIDTH = 1080 := rfl
  have hH : collideState.HEIGHT = 1920 := rfl
  rw [hW, hH, min_eq_left (by norm_num : (1080 : ℝ) ≤ 1920)]
  norm_num

/-- `collideState` is in collision. -/
theorem collideState_collides : Sim.collides collideState := by
  unfold Sim.collides
  rw [collideState_dist, collideState_R]
  have hr : collideState.ballRadius = 5 := rfl
  rw [hr]
  norm_num

/-- Witness for `C2_minimum_speed`: a genuine boundary hit with integrated
velocity `(1, 0)`. -/
theorem C2_minimum_speed_witness :
    Sim.collides collideState ∧ collideState.VELOCITY_INCREASE_FACTOR ≠ 0 ∧
    Sim.integratedVelocity collideState ≠ (0, 0) ∧
    1 ≤ Real.sqrt ((Sim.update 0 collideState).ballVelocity.1 ^ 2 +
      (Sim.update 0 collideState).ballVelocity.2 ^ 2) := by
  have h2 : collideState.VELOCITY_INCREASE_FACTOR ≠ 0 := by
    have h : collideState.VELOCITY_INCREASE_FACTOR = 1.02 := rfl
    rw [h]
    norm_num
  have h3 : Sim.integratedVelocity collideState ≠ (0, 0) := by
    rw [collideState_v1]
    intro hEq
    have h1 := congrArg Prod.fst hEq
    norm_num at h1
  exact ⟨collideState_collides, h2, h3,
    C2_minimum_speed 0 collideState collideState_collides h2 h3⟩

/-- `stallState` integrates to velocity exactly `(0, 0)`. -/
theorem stallState_v1 : Sim.integratedVelocity stallState = (0, 0) := by
  have hv : stallState.ballVelocity = (0, -2 / 5) := rfl
  have hG : stallState.GRAVITY = 0.4 := rfl
  have hD : stallState.VELOCITY_DECAY = 0.9995 := rfl
  simp only [Sim.integratedVelocity, hv, hG, hD]
  norm_num [Prod.ext_iff]

/-- `stallState` sits on the boundary at delta `(415, 0)`. -/
theorem stallState_delta : Sim.collisionDelta stallState = (415, 0) := by
  have hbc : stallState.ballCenter = (955, 960) := rfl
  have hc1 : Sim.integratedCenter stallState = (955, 960) := by
    simp only [Sim.integratedCenter, stallState_v1, hbc]
    norm_num [Prod.ext_iff]
  have hW : stallState.WIDTH = 1080 := rfl
  have hH : stallState.HEIGHT = 1920 := rfl
  simp only [Sim.collisionDelta, hc1, Sim.circleCenter, hW, hH]
  norm_num [Prod.ext_iff]

/-- `stallState` is in collision (distance 415 ≥ 415 − 5). -/
theorem stallState_collides : Sim.collides stallState := by
  unfold Sim.collides
  have hd : Sim.distToCC stallState = 415 := by
    unfold Sim.distToCC
    rw [stallState_delta]
    show Real.sqrt ((415 : ℝ) * 415 + 0 * 0) = 415
    exact sqrt_eval _ _ (by norm_num) (by norm_num)
  have hR : stallState.CIRCLE_RADIUS = 415 := by
    unfold Sim.CIRCLE_RADIUS
    have hW : stallState.WIDTH = 1080 := rfl
    have hH : stallState.HEIGHT = 1920 := rfl
    rw [hW, hH, min_eq_left (by norm_num : (1080 : ℝ) ≤ 1920)]
    norm_num
  rw [hd, hR]
  have hr : stallState.ballRadius = 5 := rfl
  rw [hr]
  norm_num

/-- The collision branch on `stallState` leaves the velocity at `(0, 0)`. -/
theorem stall_update_velocity : (Sim.update 0 stallState).ballVelocity = (0, 0) := by
  have hrefl : Sim.reflectedVelocity stallState = (0, 0) := by
    simp only [Sim.reflectedVelocity, stallState_v1]
    norm_num [Prod.ext_iff]
  have hboost : Sim.boostedVelocity stallState = (0, 0) := by
    simp only [Sim.boostedVelocity, hrefl]
    norm_num [Prod.ext_iff]
  have hfloor : Sim.flooredVelocity stallState = (0, 0) := by
    simp only [Sim.flooredVelocity, hboost]
    norm_num [Real.sqrt_zero, Prod.ext_iff]
  have hb : (Sim.update 0 stallState).ballVelocity = Sim.flooredVelocity stallState := by
    unfold Sim.update
    rw [if_pos stallState_collides]
  rw [hb, hfloor]

/-- C2 counterexample: the collision branch can run with zero incoming
velocity (here `ballVelocity = (0, −0.4)` is exactly cancelled by gravity
and decay); the floor's rescale then divides by zero (JS: the velocity
becomes `NaN`; exact model: it stays `(0, 0)`), so the resulting speed is 0,
not `≥ 1.0`. -/
theorem C2_counterexample :
    Sim.collides stallState ∧
    (Sim.update 0 stallState).ballVelocity = (0, 0) ∧
    ¬ (1 ≤ Real.sqrt ((Sim.update 0 stallState).ballVelocity.1 ^ 2 +
        (Sim.update 0 stallState).ballVelocity.2 ^ 2)) := by
  refine ⟨stallState_collides, stall_update_velocity, ?_⟩
  rw [stall_update_velocity]
  norm_num [Real.sqrt_zero]

/-- Collision-branch projections of the tick. -/
theorem update_radius_collide (now : ℝ) (s : Sim) (hcol : s.collides) :
    (Sim.update now s).ballRadius = s.grownRadius := by
  unfold Sim.update
  rw [if_pos hcol]

/-- Collision-branch velocity of the tick. -/
theorem update_velocity_collide (now : ℝ) (s : Sim) (hcol : s.collides) :
    (Sim.update now s).ballVelocity = s.flooredVelocity := by
  unfold Sim.update
  rw [if_pos hcol]

/-- Collision-branch center of the tick. -/
theorem update_center_collide (now : ℝ) (s : Sim) (hcol : s.collides) :
    (Sim.update now s).ballCenter = s.resolvedCenter := by
  unfold Sim.update
  rw [if_pos hcol]

/-- Collision-branch decal list of the tick. -/
theorem update_decals_collide (now : ℝ) (s : Sim) (hcol : s.collides) :
    (Sim.update now s).collisionPoints = s.pushDecal := by
  unfold Sim.update
  rw [if_pos hcol]

/-- At `distance = 0` the computed "unit normal" is the zero vector. -/
theorem zero_dist_normal (s : Sim) (hd : s.distToCC = 0) : s.collisionNormal = (0, 0) := by
  obtain ⟨h1, h2⟩ := (distToCC_zero_iff s).mp hd
  unfold Sim.collisionNormal
  rw [h1, h2]
  norm_num [Prod.ext_iff]

/-- At `distance = 0` no reflection happens: the "reflected" velocity is
just the integrated velocity times the restitution. -/
theorem zero_dist_reflected (s : Sim) (hd : s.distToCC = 0) :
    s.reflectedVelocity = (s.integratedVelocity.1 * 0.95, s.integratedVelocity.2 * 0.95) := by
  have hn := zero_dist_normal s hd
  simp only [Sim.reflectedVelocity, hn]
  norm_num [Prod.ext_iff]

/-- At `distance = 0`, `atan2` gives angle 0, so the reposition lands on the
positive-x axis through the boundary center. -/
theorem zero_dist_resolvedCenter (s : Sim) (hd : s.distToCC = 0) :
    s.resolvedCenter =
      (s.circleCenter.1 + (s.CIRCLE_RADIUS - s.grownRadius), s.circleCenter.2) := by
  unfold Sim.resolvedCenter Sim.cosAngle Sim.sinAngle
  rw [if_pos hd, if_pos hd]
  norm_num

/-- The boost step on a computed reflected velocity. -/
theorem boosted_eval (s : Sim) (a b : ℝ) (hr : s.reflectedVelocity = (a, b)) :
    s.boostedVelocity =
      (a * s.VELOCITY_INCREASE_FACTOR, b * s.VELOCITY_INCREASE_FACTOR) := by
  simp only [Sim.boostedVelocity, hr]

/-- The floor step on a computed boosted velocity of known sub-unit norm. -/
theorem floored_eval (s : Sim) (a b : ℝ) (hb : s.boostedVelocity = (a, b))
    (c : ℝ) (hc : Real.sqrt (a ^ 2 + b ^ 2) = c) (hlt : c < 1) :
    s.flooredVelocity = (a * (1 / c), b * (1 / c)) := by
  simp only [Sim.flooredVelocity, hb]
  rw [hc, if_pos hlt]

/-- The first component of the spec-modelled guarded resolution is
non-positive whenever the boosted reflected x-component is. -/
theorem resolveVN_fst_nonpos (s : Sim) (n : ℝ × ℝ) (a b : ℝ)
    (hv : s.integratedVelocity = (a, b))
    (hA : (a - 2 * (a * n.1 + b * n.2) * n.1) * 0.95 * s.VELOCITY_INCREASE_FACTOR ≤ 0) :
    (resolveVelocityWithNormal s n).1 ≤ 0 := by
  simp only [resolveVelocityWithNormal, hv]
  split
  · exact mul_nonpos_of_nonpos_of_nonneg hA (by positivity)
  · exact hA

/-- `zeroDistState` integrates to velocity exactly `(1, 0)`. -/
theorem zeroDist_v1 : Sim.integratedVelocity zeroDistState = (1, 0) := by
  have hv : zeroDistState.ballVelocity = (2000 / 1999, -2 / 5) := rfl
  have hG : zeroDistState.GRAVITY = 0.4 := rfl
  have hD : zeroDistState.VELOCITY_DECAY = 0.9995 := rfl
  simp only [Sim.integratedVelocity, hv, hG, hD]
  norm_num [Prod.ext_iff]

/-- The boundary center of `zeroDistState`. -/
theorem zeroDist_cc : Sim.circleCenter zeroDistState = (540, 960) := by
  have hW : zeroDistState.WIDTH = 1080 := rfl
  have hH : zeroDistState.HEIGHT = 1920 := rfl
  simp only [Sim.circleCenter, hW, hH]
  norm_num [Prod.ext_iff]

/-- `zeroDistState` integrates exactly onto the boundary center. -/
theorem zeroDist_delta : Sim.collisionDelta zeroDistState = (0, 0) := by
  have hbc : zeroDistState.ballCenter = (539, 960) := rfl
  have hc1 : Sim.integratedCenter zeroDistState = (540, 960) := by
    simp only [Sim.integratedCenter, zeroDist_v1, hbc]
    norm_num [Prod.ext_iff]
  simp only [Sim.collisionDelta, hc1, zeroDist_cc]
  norm_num [Prod.ext_iff]

/-- The collision distance of `zeroDistState` is exactly 0. -/
theorem zeroDist_dist : Sim.distToCC zeroDistState = 0 := by
  unfold Sim.distToCC
  rw [zeroDist_delta]
  show Real.sqrt ((0 : ℝ) * 0 + 0 * 0) = 0
  rw [show (0 : ℝ) * 0 + 0 * 0 = 0 by norm_num, Real.sqrt_zero]

/-- The 1080 × 1920 canvas gives `CIRCLE_RADIUS = 415` here too. -/
theorem zeroDist_R : zeroDistState.CIRCLE_RADIUS = 415 := by
  unfold Sim.CIRCLE_RADIUS
  have hW : zeroDistState.WIDTH = 1080 := rfl
  have hH : zeroDistState.HEIGHT = 1920 := rfl
  rw [hW, hH, min_eq_left (by norm_num : (1080 : ℝ) ≤ 1920)]
  norm_num

/-- `zeroDistState` is in collision: `distance = 0 ≥ 415 − 500`. -/
theorem zeroDist_collides : Sim.collides zeroDistState := by
  unfold Sim.collides
  rw [zeroDist_dist, zeroDist_R]
  have hr : zeroDistState.ballRadius = 500 := rfl
  rw [hr]
  norm_num

/-- The growth step still fires at distance 0: 500 → 507.5. -/
theorem zeroDist_grown : Sim.grownRadius zeroDistState = 507.5 := by
  unfold Sim.grownRadius
  have hr : zeroDistState.ballRadius = 500 := rfl
  have hM : zeroDistState.MAX_BALL_RADIUS = 622.5 := by
    unfold Sim.MAX_BALL_RADIUS
    rw [zeroDist_R]
    norm_num
  have hG : zeroDistState.BALL_GROWTH_RATE = 1.015 := rfl
  rw [hr, hM, hG, if_pos (by norm_num : (500 : ℝ) < 622.5),
    min_eq_left (by norm_num : (500 : ℝ) * 1.015 ≤ 622.5)]
  norm_num

/-- C7 counterexample: a zero-distance collision (ball center integrated
exactly onto the boundary center, radius 500 > 415).  The tick does *not*
skip resolution (the radius grows and the center is overwritten), and no
unit normal — in particular no previous tick's normal — is consistent with
what the tick actually did: the reposition forces `n = (1, 0)`, but
reflecting the incoming `(1, 0)` velocity about `(1, 0)` would give a
negative x-velocity, while the tick leaves the velocity pointing in `+x`.
So the claimed division-by-zero guard does not exist: the branch runs with
the unguarded `dx/0` normal (`NaN` in JavaScript). -/
theorem C7_counterexample :
    Sim.distToCC zeroDistState = 0 ∧
    Sim.collides zeroDistState ∧
    Sim.update 0 zeroDistState ≠ Sim.integrateOnly 0 zeroDistState ∧
    ∀ n : ℝ × ℝ, n.1 ^ 2 + n.2 ^ 2 = 1 →
      ¬ ((Sim.update 0 zeroDistState).ballVelocity = resolveVelocityWithNormal zeroDistState n ∧
         (Sim.update 0 zeroDistState).ballCenter = repositionWithNormal zeroDistState n) := by
  have hF : zeroDistState.VELOCITY_INCREASE_FACTOR = 1.02 := rfl
  have hreflZ : Sim.reflectedVelocity zeroDistState = (0.95, 0) := by
    rw [zero_dist_reflected zeroDistState zeroDist_dist, zeroDist_v1]
    norm_num [Prod.ext_iff]
  have hboostZ : Sim.boostedVelocity zeroDistState = (0.969, 0) := by
    rw [boosted_eval zeroDistState _ _ hreflZ, hF]
    norm_num [Prod.ext_iff]
  have hcurZ : Real.sqrt ((0.969 : ℝ) ^ 2 + (0 : ℝ) ^ 2) = 0.969 :=
    sqrt_eval _ _ (by norm_num) (by norm_num)
  have hfloorZ : Sim.flooredVelocity zeroDistState = (1, 0) := by
    rw [floored_eval zeroDistState _ _ hboostZ _ hcurZ (by norm_num)]
    norm_num [Prod.ext_iff]
  have hvel : (Sim.update 0 zeroDistState).ballVelocity = (1, 0) := by
    rw [update_velocity_collide 0 zeroDistState zeroDist_collides, hfloorZ]
  have hcen : (Sim.update 0 zeroDistState).ballCenter = (447.5, 960) := by
    rw [update_center_collide 0 zeroDistState zeroDist_collides,
      zero_dist_resolvedCenter zeroDistState zeroDist_dist, zeroDist_cc, zeroDist_R,
      zeroDist_grown]
    norm_num [Prod.ext_iff]
  refine ⟨zeroDist_dist, zeroDist_collides, ?_, ?_⟩
  · intro heq
    have h := congrArg Sim.ballRadius heq
    rw [update_radius_collide 0 zeroDistState zeroDist_collides, zeroDist_grown] at h
    have h2 : (Sim.integrateOnly 0 zeroDistState).ballRadius = 500 := rfl
    rw [h2] at h
    norm_num at h
  · rintro ⟨n1, n2⟩ hn ⟨hV, hC⟩
    rw [hcen] at hC
    unfold repositionWithNormal at hC
    rw [zeroDist_cc, zeroDist_R, zeroDist_grown] at hC
    have hC1 := congrArg Prod.fst hC
    have hC2 := congrArg Prod.snd hC
    simp only [Prod.fst, Prod.snd] at hC1 hC2
    have hn1 : n1 = 1 := by linarith
    have hn2 : n2 = 0 := by linarith
    subst hn1
    subst hn2
    rw [hvel] at hV
    have hres : (resolveVelocityWithNormal zeroDistState ((1 : ℝ), (0 : ℝ))).1 ≤ 0 := by
      refine resolveVN_fst_nonpos zeroDistState _ _ _ zeroDist_v1 ?_
      rw [hF]
      norm_num
    have h1 := congrArg Prod.fst hV
    simp only [Prod.fst] at h1
    rw [← h1] at hres
    norm_num at hres

/-- C7 (amended): the tick is total in this exact model, but the
zero-distance collision is *not* guarded: whenever the collision branch is
entered with `distance = 0`, resolution still runs — the radius still grows,
the decal is still recorded, the center is repositioned along the
`atan2(0,0) = 0` direction, and the velocity pipeline uses the
division-by-zero normal (`(0,0)` here, `NaN` in JavaScript), so the
velocity is scaled but never reflected. -/
theorem C7_zero_distance_unguarded (now : ℝ) (s : Sim)
    (hd : s.distToCC = 0) (hcol : s.collides) :
    (Sim.update now s).ballRadius = s.grownRadius ∧
    (Sim.update now s).ballCenter =
      (s.circleCenter.1 + (s.CIRCLE_RADIUS - s.grownRadius), s.circleCenter.2) ∧
    s.collisionNormal = (0, 0) ∧
    s.reflectedVelocity = (s.integratedVelocity.1 * 0.95, s.integratedVelocity.2 * 0.95) ∧
    (Sim.update now s).ballVelocity = s.flooredVelocity ∧
    (Sim.update now s).collisionPoints = s.pushDecal :=
  ⟨update_radius_collide now s hcol,
   by rw [update_center_collide now s hcol, zero_dist_resolvedCenter s hd],
   zero_dist_normal s hd, zero_dist_reflected s hd,
   update_velocity_collide now s hcol, update_decals_collide now s hcol⟩

/-- Witness for `C7_zero_distance_unguarded` at the concrete zero-distance
collision state. -/
theorem C7_zero_distance_unguarded_witness :
    Sim.distToCC zeroDistState = 0 ∧ Sim.collides zeroDistState ∧
    (Sim.update 0 zeroDistState).ballRadius = Sim.grownRadius zeroDistState ∧
    Sim.collisionNormal zeroDistState = (0, 0) :=
  ⟨zeroDist_dist, zeroDist_collides,
   (C7_zero_distance_unguarded 0 zeroDistState zeroDist_dist zeroDist_collides).1,
   (C7_zero_distance_unguarded 0 zeroDistState zeroDist_dist zeroDist_collides).2.2.1⟩

/-- `chunkLens` of a positive remainder unfolds to a cons. -/
theorem chunkLens_pos (m r : ℕ) (hm : 0 < m) (hr : 0 < r) :
    chunkLens m r = min m r :: chunkLens m (r - m) := by
  rw [chunkLens, dif_pos ⟨hm, hr⟩]

/-- `chunkLens` of remainder 0 is empty. -/
theorem chunkLens_zero (m : ℕ) : chunkLens m 0 = [] := by
  rw [chunkLens, dif_neg]
  omega

/-- The chunk lengths sum back to the original length. -/
theorem chunkLens_sum (m : ℕ) (hm : 1 ≤ m) : ∀ r, (chunkLens m r).sum = r := by
  intro r
  induction r using Nat.strong_induction_on with
  | _ r ih =>
    rcases Nat.eq_zero_or_pos r with hr | hr
    · subst hr
      rw [chunkLens_zero]
      rfl
    · rw [chunkLens_pos m r (by omega) hr]
      have := ih (r - m) (by omega)
      simp only [List.sum_cons, this]
      omega

/-- Every chunk is non-empty. -/
theorem chunkLens_ne_nil (m r : ℕ) (hm : 0 < m) (hr : 0 < r) : chunkLens m r ≠ [] := by
  rw [chunkLens_pos m r hm hr]
  exact List.cons_ne_nil _ _

/-- All chunks except possibly the last are full (`= m`). -/
theorem chunkLens_dropLast (m : ℕ) (hm : 1 ≤ m) :
    ∀ r, ∀ x ∈ (chunkLens m r).dropLast, x = m := by
  intro r
  induction r using Nat.strong_induction_on with
  | _ r ih =>
    intro x hx
    rcases Nat.eq_zero_or_pos r with hr | hr
    · rw [hr, chunkLens_zero] at hx
      simp at hx
    · rw [chunkLens_pos m r (by omega) hr] at hx
      rcases le_or_lt r m with hrm | hrm
      · have hrest : chunkLens m (r - m) = [] := by
          rw [show r - m = 0 by omega, chunkLens_zero]
        rw [hrest] at hx
        simp at hx
      · have hrest : chunkLens m (r - m) ≠ [] := chunkLens_ne_nil m (r - m) (by omega) (by omega)
        rw [List.dropLast_cons_of_ne_nil hrest] at hx
        rcases List.mem_cons.mp hx with h | h
        · rw [h]
          omega
        · exact ih (r - m) (by omega) x h

/-- The last chunk is the (positive) remainder: at most `m`, and exactly
`r % m` when `m` does not divide `r`. -/
theorem chunkLens_getLast (m : ℕ) (hm : 1 ≤ m) :
    ∀ r, 0 < r → ∀ h : chunkLens m r ≠ [],
      0 < (chunkLens m r).getLast h ∧ (chunkLens m r).getLast h ≤ m ∧
      (¬ (m ∣ r) → (chunkLens m r).getLast h = r % m) := by
  intro r
  induction r using Nat.strong_induction_on with
  | _ r ih =>
    intro hr h
    rcases le_or_lt r m with hrm | hrm
    · have hrest : chunkLens m (r - m) = [] := by
        rw [show r - m = 0 by omega, chunkLens_zero]
      have hch : chunkLens m r = [min m r] := by
        rw [chunkLens_pos m r (by omega) hr, hrest]
      have hlast : (chunkLens m r).getLast h = min m r := by
        simp [List.getLast_congr _ _ hch]
      rw [hlast]
      refine ⟨by omega, by omega, fun hdvd => ?_⟩
      have hne : r ≠ m := fun hEq => hdvd (hEq ▸ dvd_refl m)
      have : r < m := by omega
      rw [Nat.mod_eq_of_lt this]
      omega
    · have hrest : chunkLens m (r - m) ≠ [] := chunkLens_ne_nil m (r - m) (by omega) (by omega)
      have hch : chunkLens m r = min m r :: chunkLens m (r - m) :=
        chunkLens_pos m r (by omega) hr
      have hlast : (chunkLens m r).getLast h = (chunkLens m (r - m)).getLast hrest := by
        rw [List.getLast_congr _ _ hch]
        exact List.getLast_cons hrest
      have IH := ih (r - m) (by omega) (by omega) hrest
      rw [hlast]
      refine ⟨IH.1, IH.2.1, fun hdvd => ?_⟩
      have hdvd' : ¬ (m ∣ (r - m)) := by
        intro hd
        refine hdvd ?_
        have h2 : r = (r - m) + m := by omega
        rw [h2]
        exact dvd_add hd (dvd_refl m)
      rw [IH.2.2 hdvd']
      conv_rhs => rw [show r = (r - m) + m by omega]
      rw [Nat.add_mod_right]

/-- The split loop stops once the offset passes the buffer length. -/
theorem splitSegLoop_nil (sps d : ℚ) (buf : AudioBuffer) (i : ℚ)
    (h : ¬ (0 < sps ∧ i < (buf.length : ℚ))) :
    splitSegLoop sps d buf i = [] := by
  rw [splitSegLoop, dif_neg h]

/-- One iteration of the split loop at an integral offset `k` with an
integral `samplesPerSegment = m ≥ 1`: all Web-IDL truncations are exact. -/
theorem splitSegLoop_step (m : ℕ) (hm : 1 ≤ m) (d : ℚ) (buf : AudioBuffer) (k : ℕ)
    (hk : k < buf.length) :
    splitSegLoop (m : ℚ) d buf (k : ℚ) =
      { buffer := { numberOfChannels := buf.numberOfChannels,
                    length := min m (buf.length - k),
                    sampleRate := buf.sampleRate,
                    channels := buf.channels.map (fun ch =>
                      ((ch.drop k).take (min m (buf.length - k)) ++
                        List.replicate (min m (buf.length - k)) 0).take
                          (min m (buf.length - k))) },
        startTime := (k : ℚ) / buf.sampleRate, duration := d } ::
        splitSegLoop (m : ℚ) d buf ((k + m : ℕ) : ℚ) := by
  have hm0 : (0 : ℚ) < m := by exact_mod_cast Nat.lt_of_lt_of_le Nat.zero_lt_one hm
  have hkq : (k : ℚ) < (buf.length : ℚ) := by exact_mod_cast hk
  rw [splitSegLoop, dif_pos ⟨hm0, hkq⟩]
  have hsegLen : min (m : ℚ) ((buf.length : ℚ) - (k : ℚ)) =
      ((min m (buf.length - k) : ℕ) : ℚ) := by
    rw [Nat.cast_min, Nat.cast_sub hk.le]
  have hiN : (Int.floor ((k : ℚ))).toNat = k := by
    rw [Int.floor_natCast, Int.toNat_natCast]
  have hlenN : (Int.floor (min (m : ℚ) ((buf.length : ℚ) - (k : ℚ)))).toNat =
      min m (buf.length - k) := by
    rw [hsegLen, Int.floor_natCast, Int.toNat_natCast]
  have hendN : (Int.floor ((k : ℚ) + min (m : ℚ) ((buf.length : ℚ) - (k : ℚ)))).toNat =
      k + min m (buf.length - k) := by
    rw [hsegLen,
      show (k : ℚ) + ((min m (buf.length - k) : ℕ) : ℚ) =
        ((k + min m (buf.length - k) : ℕ) : ℚ) by push_cast; ring,
      Int.floor_natCast, Int.toNat_natCast]
  simp only [hiN, hlenN, hendN]
  rw [show k + min m (buf.length - k) - k = min m (buf.length - k) from by omega]
  rw [show (k : ℚ) + (m : ℚ) = ((k + m : ℕ) : ℚ) by push_cast; ring]

/-- The segment lengths produced by the split are exactly the chunk shape of
the remaining frame count. -/
theorem splitSegLoop_lengths (m : ℕ) (hm : 1 ≤ m) (d : ℚ) (buf : AudioBuffer) :
    ∀ r k, buf.length - k = r →
      (splitSegLoop (m : ℚ) d buf (k : ℚ)).map (fun sg => sg.buffer.length) =
        chunkLens m r := by
  intro r
  induction r using Nat.strong_induction_on with
  | _ r ih =>
    intro k hr
    by_cases hk : k < buf.length
    · rw [splitSegLoop_step m hm d buf k hk]
      have hr0 : 0 < r := by omega
      rw [chunkLens_pos m r (by omega) hr0, List.map_cons]
      congr 1
      · rw [hr]
      · exact ih (r - m) (by omega) (k + m) (by omega)
    · have hc : ¬ (0 < (m : ℚ) ∧ (k : ℚ) < (buf.length : ℚ)) := by
        push_neg
        intro _
        exact_mod_cast (by omega : buf.length ≤ k)
      have hr0 : r = 0 := by omega
      rw [splitSegLoop_nil _ _ _ _ hc, hr0, chunkLens_zero]
      rfl

/-- Per-channel content: the concatenation of the produced segments' channel
`j` data is exactly the suffix of the source channel from the split
offset — sample-accurate, nothing lost and nothing duplicated. -/
theorem splitSegLoop_content (m : ℕ) (hm : 1 ≤ m) (d : ℚ) (buf : AudioBuffer) (j : ℕ)
    (hwf : ∀ ch ∈ buf.channels, ch.length = buf.length) :
    ∀ r k, buf.length - k = r →
      ((splitSegLoop (m : ℚ) d buf (k : ℚ)).map
        (fun sg => sg.buffer.channels.getD j [])).flatten =
        (buf.channels.getD j []).drop k := by
  intro r
  induction r using Nat.strong_induction_on with
  | _ r ih =>
    intro k hr
    by_cases hk : k < buf.length
    · rw [splitSegLoop_step m hm d buf k hk, List.map_cons, List.flatten_cons,
        ih (r - m) (by omega) (k + m) (by omega)]
      by_cases hj : j < buf.channels.length
      · have hmaplen : j < (buf.channels.map (fun ch =>
            ((ch.drop k).take (min m (buf.length - k)) ++
              List.replicate (min m (buf.length - k)) 0).take
                (min m (buf.length - k)))).length := by
          simpa using hj
        rw [List.getD_eq_getElem _ _ hmaplen, List.getElem_map]
        rw [List.getD_eq_getElem _ _ hj]
        set c := buf.channels[j] with hc
        have hclen : c.length = buf.length := hwf c (List.getElem_mem hj)
        have hsrclen : ((c.drop k).take (min m (buf.length - k))).length =
            min m (buf.length - k) := by
          simp only [List.length_take, List.length_drop, hclen]
          omega
        rw [List.take_left' hsrclen]
        rcases le_or_lt (buf.length - k) m with hcase | hcase
        · have h1 : min m (buf.length - k) = buf.length - k := by omega
          have h2 : (c.drop k).length = buf.length - k := by
            simp [hclen]
          rw [h1, ← h2, List.take_length]
          have h3 : c.drop (k + m) = [] := List.drop_eq_nil_of_le (by omega)
          rw [h3, List.append_nil]
        · have h1 : min m (buf.length - k) = m := by omega
          rw [h1]
          exact List.drop_take_append_drop c k m
      · have hj' : buf.channels.length ≤ j := le_of_not_lt hj
        have hmapj : (buf.channels.map (fun ch =>
            ((ch.drop k).take (min m (buf.length - k)) ++
              List.replicate (min m (buf.length - k)) 0).take
                (min m (buf.length - k)))).length ≤ j := by
          simpa using hj'
        rw [List.getD_eq_default _ _ hmapj, List.getD_eq_default _ _ hj']
        simp
    · have hc : ¬ (0 < (m : ℚ) ∧ (k : ℚ) < (buf.length : ℚ)) := by
        push_neg
        intro _
        exact_mod_cast (by omega : buf.length ≤ k)
      rw [splitSegLoop_nil _ _ _ _ hc]
      by_cases hj : j < buf.channels.length
      · have hclen : (buf.channels.getD j []).length = buf.length := by
          rw [List.getD_eq_getElem _ _ hj]
          exact hwf _ (List.getElem_mem hj)
        rw [List.drop_eq_nil_of_le (by omega : (buf.channels.getD j []).length ≤ k)]
        rfl
      · rw [List.getD_eq_default _ _ (le_of_not_lt hj)]
        simp

/-- Shape preservation: every produced segment keeps the source's sample
rate, channel count and channel-list length. -/
theorem splitSegLoop_shape (m : ℕ) (hm : 1 ≤ m) (d : ℚ) (buf : AudioBuffer) :
    ∀ r k, buf.length - k = r →
      ∀ sg ∈ splitSegLoop (m : ℚ) d buf (k : ℚ),
        sg.buffer.sampleRate = buf.sampleRate ∧
        sg.buffer.numberOfChannels = buf.numberOfChannels ∧
        sg.buffer.channels.length = buf.channels.length := by
  intro r
  induction r using Nat.strong_induction_on with
  | _ r ih =>
    intro k hr sg hsg
    by_cases hk : k < buf.length
    · rw [splitSegLoop_step m hm d buf k hk] at hsg
      rcases List.mem_cons.mp hsg with h | h
      · subst h
        refine ⟨rfl, rfl, ?_⟩
        simp
      · exact ih (r - m) (by omega) (k + m) (by omega) sg h
    · have hc : ¬ (0 < (m : ℚ) ∧ (k : ℚ) < (buf.length : ℚ)) := by
        push_neg
        intro _
        exact_mod_cast (by omega : buf.length ≤ k)
      rw [splitSegLoop_nil _ _ _ _ hc] at hsg
      simp at hsg

/-- `splitAudioIntoSegments` with an integral `samplesPerSegment`. -/
theorem splitAudio_eq (d : ℚ) (buf : AudioBuffer) (m : ℕ) (hdm : d * buf.sampleRate = m) :
    splitAudioIntoSegments d buf = splitSegLoop (m : ℚ) d buf ((0 : ℕ) : ℚ) := by
  unfold splitAudioIntoSegments
  rw [hdm]
  norm_num

/-- `dropLast` commutes with `map`. -/
theorem map_dropLast_aux {α β : Type} (l : List α) (f : α → β) :
    (l.map f).dropLast = l.dropLast.map f := by
  induction l with
  | nil => rfl
  | cons a t ih => cases t <;> simp_all

/-- C4: splitting a decoded buffer with `segmentDuration` yielding an
integral `samplesPerSegment = m ≥ 1` produces consecutive segments of `m`
frames each, sample-accurate (per-channel concatenation is exactly the
source data), with the final segment holding the positive remainder —
`length % m` frames, shorter than a full segment, when the length does not
divide evenly.  A 1.0 s buffer at `segmentDuration = 0.3` yields exactly 4
segments of durations `[0.3, 0.3, 0.3, 0.1]`. -/
theorem C4_segment_split :
    (∀ (buf : AudioBuffer) (d : ℚ) (m : ℕ), 1 ≤ m → d * buf.sampleRate = (m : ℚ) →
      (∀ ch ∈ buf.channels, ch.length = buf.length) →
      (∀ sg ∈ (splitAudioIntoSegments d buf).dropLast, sg.buffer.length = m) ∧
      ((splitAudioIntoSegments d buf).map (fun sg => sg.buffer.length)).sum = buf.length ∧
      (∀ j : ℕ, ((splitAudioIntoSegments d buf).map
          (fun sg => sg.buffer.channels.getD j [])).flatten = buf.channels.getD j []) ∧
      ∀ h : splitAudioIntoSegments d buf ≠ [],
        0 < ((splitAudioIntoSegments d buf).getLast h).buffer.length ∧
        ((splitAudioIntoSegments d buf).getLast h).buffer.length ≤ m ∧
        (¬ (m ∣ buf.length) →
          ((splitAudioIntoSegments d buf).getLast h).buffer.length = buf.length % m)) ∧
    (splitAudioIntoSegments (3 / 10) sampleBuffer).map
      (fun sg => (sg.buffer.length : ℚ) / sg.buffer.sampleRate) =
      [3 / 10, 3 / 10, 3 / 10, 1 / 10] := by
  constructor
  · intro buf d m hm hdm hwf
    have heq := splitAudio_eq d buf m hdm
    have hlen := splitSegLoop_lengths m hm d buf buf.length 0 (by omega)
    rw [heq]
    refine ⟨?_, ?_, ?_, ?_⟩
    · intro sg hsg
      have h1 : sg.buffer.length ∈
          ((splitSegLoop (m : ℚ) d buf ((0 : ℕ) : ℚ)).map
            (fun sg => sg.buffer.length)).dropLast := by
        rw [map_dropLast_aux]
        exact List.mem_map_of_mem _ hsg
      rw [hlen] at h1
      exact chunkLens_dropLast m hm buf.length _ h1
    · rw [hlen]
      exact chunkLens_sum m hm buf.length
    · intro j
      have hcont := splitSegLoop_content m hm d buf j hwf buf.length 0 (by omega)
      simpa using hcont
    · intro h
      have hne : chunkLens m buf.length ≠ [] := by
        rw [← hlen]
        simpa using h
      have hmapne : (splitSegLoop (m : ℚ) d buf ((0 : ℕ) : ℚ)).map
          (fun sg => sg.buffer.length) ≠ [] := by
        simpa using h
      have hlast : ((splitSegLoop (m : ℚ) d buf ((0 : ℕ) : ℚ)).getLast h).buffer.length =
          (chunkLens m buf.length).getLast hne := by
        have hmap := List.getLast_map (fun sg => sg.buffer.length)
          (splitSegLoop (m : ℚ) d buf ((0 : ℕ) : ℚ)) hmapne
        rw [← hmap]
        exact List.getLast_congr _ _ hlen
      have hpos : 0 < buf.length := by
        by_contra hc
        push_neg at hc
        refine h (splitSegLoop_nil _ _ _ _ ?_)
        push_neg
        intro _
        have h0 : buf.length = 0 := by omega
        rw [h0]
      rw [hlast]
      exact chunkLens_getLast m hm buf.length hpos hne
  · have hm3 : (3 / 10 : ℚ) * sampleBuffer.sampleRate = ((3 : ℕ) : ℚ) := by
      norm_num [sampleBuffer]
    have heq := splitAudio_eq (3 / 10) sampleBuffer 3 hm3
    have hshape := splitSegLoop_shape 3 (by norm_num) (3 / 10) sampleBuffer
      sampleBuffer.length 0 (by omega)
    have hlen := splitSegLoop_lengths 3 (by norm_num) (3 / 10) sampleBuffer 10 0 rfl
    have hchunk : chunkLens 3 10 = [3, 3, 3, 1] := by simp [chunkLens]
    rw [heq]
    have hstep1 : (splitSegLoop ((3 : ℕ) : ℚ) (3 / 10) sampleBuffer ((0 : ℕ) : ℚ)).map
        (fun sg => (sg.buffer.length : ℚ) / sg.buffer.sampleRate) =
        (splitSegLoop ((3 : ℕ) : ℚ) (3 / 10) sampleBuffer ((0 : ℕ) : ℚ)).map
        (fun sg => (sg.buffer.length : ℚ) / 10) := by
      refine List.map_congr_left fun sg hsg => ?_
      rw [(hshape sg hsg).1]
      rfl
    rw [hstep1, show (fun sg : AudioSegment => (sg.buffer.length : ℚ) / 10) =
        ((fun n : ℕ => (n : ℚ) / 10) ∘ (fun sg : AudioSegment => sg.buffer.length)) from rfl,
      ← List.map_map, hlen, hchunk]
    norm_num

/-- Witness for `C4_segment_split`: the 1.0 s test buffer at 0.3 s. -/
theorem C4_segment_split_witness :
    ((1 : ℕ) ≤ 3 ∧ (3 / 10 : ℚ) * sampleBuffer.sampleRate = ((3 : ℕ) : ℚ) ∧
      ∀ ch ∈ sampleBuffer.channels, ch.length = sampleBuffer.length) ∧
    ((splitAudioIntoSegments (3 / 10) sampleBuffer).map (fun sg => sg.buffer.length)).sum =
      sampleBuffer.length := by
  have hwf : ∀ ch ∈ sampleBuffer.channels, ch.length = sampleBuffer.length := by
    intro ch hch
    simp only [sampleBuffer, List.mem_singleton] at hch
    subst hch
    rfl
  exact ⟨⟨by norm_num, by norm_num [sampleBuffer], hwf⟩,
    (C4_segment_split.1 sampleBuffer (3 / 10) 3 (by norm_num)
      (by norm_num [sampleBuffer]) hwf).2.1⟩

/-- Reading a list back out of `getD` lookups over `range`. -/
theorem range_map_getD {α : Type} (l : List α) (dflt : α) (n : ℕ) (h : l.length = n) :
    (List.range n).map (fun c => l.getD c dflt) = l := by
  apply List.ext_getElem
  · simp [h]
  · intro i h1 h2
    simp only [List.getElem_map, List.getElem_range]
    rw [List.getD_eq_getElem l dflt h2]

/-- Round trip (lines 42-61 of `reprocessTracks`): concatenating the
segments of a split track in order reconstructs the source buffer exactly —
same channel count, frame count, sample rate and sample data. -/
theorem concat_split_roundtrip (buf : AudioBuffer) (d : ℚ) (m : ℕ) (hm : 1 ≤ m)
    (hdm : d * buf.sampleRate = (m : ℚ))
    (hwf1 : buf.channels.length = buf.numberOfChannels)
    (hwf2 : ∀ ch ∈ buf.channels, ch.length = buf.length)
    (hne : splitAudioIntoSegments d buf ≠ []) :
    concatTrackBuffer (splitAudioIntoSegments d buf) =
      { numberOfChannels := buf.numberOfChannels, length := buf.length,
        sampleRate := buf.sampleRate, channels := buf.channels } := by
  have heq := splitAudio_eq d buf m hdm
  rw [heq] at hne ⊢
  have hshape := splitSegLoop_shape m hm d buf buf.length 0 (by omega)
  have hlen := splitSegLoop_lengths m hm d buf buf.length 0 (by omega)
  have hcont := fun j => splitSegLoop_content m hm d buf j hwf2 buf.length 0 (by omega)
  obtain ⟨hd, tl, hcons⟩ : ∃ hd tl,
      splitSegLoop (m : ℚ) d buf ((0 : ℕ) : ℚ) = hd :: tl := by
    cases hs : splitSegLoop (m : ℚ) d buf ((0 : ℕ) : ℚ) with
    | nil => exact absurd hs hne
    | cons a t => exact ⟨a, t, rfl⟩
  have hhd := hshape hd (by rw [hcons]; exact List.mem_cons_self _ _)
  rw [hcons]
  unfold concatTrackBuffer
  simp only [AudioBuffer.mk.injEq]
  refine ⟨hhd.2.1, ?_, hhd.1, ?_⟩
  · rw [← hcons, hlen]
    exact chunkLens_sum m hm buf.length
  · rw [hhd.2.1, ← hcons]
    have hpt : ∀ c ∈ List.range buf.numberOfChannels,
        ((splitSegLoop (m : ℚ) d buf ((0 : ℕ) : ℚ)).map
          (fun sg => sg.buffer.channels.getD c [])).flatten =
          buf.channels.getD c [] := by
      intro c _
      simpa using hcont c
    rw [List.map_congr_left hpt]
    exact range_map_getD buf.channels [] buf.numberOfChannels hwf1

/-- Uploading the test buffer stores one track and makes it active. -/
theorem loadedAM_eq : loadedAM =
    { AMState.mk0 with
        audioTracks := [splitAudioIntoSegments (3 / 10) sampleBuffer],
        segments := splitAudioIntoSegments (3 / 10) sampleBuffer } := by
  have hv : isValidAudioFormat { ftype := "audio/wav", decoded := some sampleBuffer } = true := by
    decide
  have hcap : ¬ (MAX_TRACKS ≤ (AMState.mk0).audioTracks.length) := by decide
  unfold loadedAM
  simp only [AMState.processAudioFile, hv, hcap]
  norm_num [AMState.mk0]

/-- The 0.3 s split of the test buffer has exactly 4 segments. -/
theorem track0_length : (splitAudioIntoSegments (3 / 10) sampleBuffer).length = 4 := by
  have hm3 : (3 / 10 : ℚ) * sampleBuffer.sampleRate = ((3 : ℕ) : ℚ) := by
    norm_num [sampleBuffer]
  have hlen := splitSegLoop_lengths 3 (by norm_num) (3 / 10) sampleBuffer 10 0 rfl
  have hchunk : chunkLens 3 10 = [3, 3, 3, 1] := by simp [chunkLens]
  have h1 : (splitAudioIntoSegments (3 / 10) sampleBuffer).length =
      ((splitAudioIntoSegments (3 / 10) sampleBuffer).map (fun sg => sg.buffer.length)).length :=
    (List.length_map _ _).symm
  rw [h1, splitAudio_eq (3 / 10) sampleBuffer 3 hm3, hlen, hchunk]
  rfl

/-- Evaluating `setSegmentDuration 0.5` on the loaded manager: the single
track is rebuilt from its concatenation (which is exactly the test buffer)
and re-split at 0.5 s. -/
theorem setSeg_loadedAM :
    AMState.setSegmentDuration (1 / 2) loadedAM =
      { AMState.mk0 with
          segmentDuration := 1 / 2,
          audioTracks := [splitAudioIntoSegments (1 / 2) sampleBuffer],
          segments := splitAudioIntoSegments (1 / 2) sampleBuffer } := by
  have hwf : ∀ ch ∈ sampleBuffer.channels, ch.length = sampleBuffer.length := by
    intro ch hch
    simp only [sampleBuffer, List.mem_singleton] at hch
    subst hch
    rfl
  have hne : splitAudioIntoSegments (3 / 10) sampleBuffer ≠ [] := by
    intro h
    have := track0_length
    rw [h] at this
    simp at this
  have hconcat : concatTrackBuffer (splitAudioIntoSegments (3 / 10) sampleBuffer) =
      sampleBuffer := by
    rw [concat_split_roundtrip sampleBuffer (3 / 10) 3 (by norm_num)
      (by norm_num [sampleBuffer]) rfl hwf hne]
  rw [AMState.setSegmentDuration, if_pos (by norm_num : (0 : ℚ) < 1 / 2), loadedAM_eq]
  unfold AMState.reprocessTracks
  simp only [List.foldl_cons, List.foldl_nil]
  rw [if_pos (by rw [track0_length]; norm_num : 0 < (splitAudioIntoSegments (3 / 10) sampleBuffer).length)]
  simp only [hconcat]
  norm_num

/-- C5: `setSegmentDuration` with a new duration > 0 reconstructs each
track's full sample buffer by concatenating its segments in order — the
round trip is exact — and re-splits at the new duration, preserving the
total sample count (hence the total duration).  Changing 0.3 → 0.5 on the
1.0 s track yields 2 segments of durations `[0.5, 0.5]` with the full 1.0 s
(10 frames at 10 Hz) still covered. -/
theorem C5_resegmentation :
    (∀ (buf : AudioBuffer) (d : ℚ) (m : ℕ), 1 ≤ m → d * buf.sampleRate = (m : ℚ) →
      buf.channels.length = buf.numberOfChannels →
      (∀ ch ∈ buf.channels, ch.length = buf.length) →
      splitAudioIntoSegments d buf ≠ [] →
      concatTrackBuffer (splitAudioIntoSegments d buf) =
        { numberOfChannels := buf.numberOfChannels, length := buf.length,
          sampleRate := buf.sampleRate, channels := buf.channels } ∧
      (∀ (e : ℚ) (me : ℕ), 1 ≤ me → e * buf.sampleRate = (me : ℚ) →
        ((splitAudioIntoSegments e
            (concatTrackBuffer (splitAudioIntoSegments d buf))).map
          (fun sg => sg.buffer.length)).sum = buf.length)) ∧
    ((AMState.setSegmentDuration (1 / 2) loadedAM).audioTracks.length = 1 ∧
      ((AMState.setSegmentDuration (1 / 2) loadedAM).audioTracks.getD 0 []).map
        (fun sg => (sg.buffer.length : ℚ) / sg.buffer.sampleRate) = [1 / 2, 1 / 2] ∧
      (((AMState.setSegmentDuration (1 / 2) loadedAM).audioTracks.getD 0 []).map
        (fun sg => sg.buffer.length)).sum = 10) := by
  constructor
  · intro buf d m hm hdm hwf1 hwf2 hne
    have hrt := concat_split_roundtrip buf d m hm hdm hwf1 hwf2 hne
    refine ⟨hrt, fun e me hme hdme => ?_⟩
    rw [hrt]
    have hdme' : e * (AudioBuffer.mk buf.numberOfChannels buf.length buf.sampleRate
        buf.channels).sampleRate = (me : ℚ) := hdme
    rw [splitAudio_eq e (AudioBuffer.mk buf.numberOfChannels buf.length buf.sampleRate
        buf.channels) me hdme',
      splitSegLoop_lengths me hme e (AudioBuffer.mk buf.numberOfChannels buf.length
        buf.sampleRate buf.channels) buf.length 0 (by simp)]
    exact chunkLens_sum me hme buf.length
  · rw [setSeg_loadedAM]
    have hm5 : (1 / 2 : ℚ) * sampleBuffer.sampleRate = ((5 : ℕ) : ℚ) := by
      norm_num [sampleBuffer]
    have hlen := splitSegLoop_lengths 5 (by norm_num) (1 / 2) sampleBuffer 10 0 rfl
    have hchunk : chunkLens 5 10 = [5, 5] := by simp [chunkLens]
    have hshape := splitSegLoop_shape 5 (by norm_num) (1 / 2) sampleBuffer 10 0 rfl
    refine ⟨rfl, ?_, ?_⟩
    · show (splitAudioIntoSegments (1 / 2) sampleBuffer).map
        (fun sg => (sg.buffer.length : ℚ) / sg.buffer.sampleRate) = [1 / 2, 1 / 2]
      rw [splitAudio_eq (1 / 2) sampleBuffer 5 hm5]
      have hstep1 : (splitSegLoop ((5 : ℕ) : ℚ) (1 / 2) sampleBuffer ((0 : ℕ) : ℚ)).map
          (fun sg => (sg.buffer.length : ℚ) / sg.buffer.sampleRate) =
          (splitSegLoop ((5 : ℕ) : ℚ) (1 / 2) sampleBuffer ((0 : ℕ) : ℚ)).map
          (fun sg => (sg.buffer.length : ℚ) / 10) := by
        refine List.map_congr_left fun sg hsg => ?_
        rw [(hshape sg hsg).1]
        rfl
      rw [hstep1, show (fun sg : AudioSegment => (sg.buffer.length : ℚ) / 10) =
          ((fun n : ℕ => (n : ℚ) / 10) ∘ (fun sg : AudioSegment => sg.buffer.length)) from rfl,
        ← List.map_map, hlen, hchunk]
      norm_num
    · show ((splitAudioIntoSegments (1 / 2) sampleBuffer).map
        (fun sg => sg.buffer.length)).sum = 10
      rw [splitAudio_eq (1 / 2) sampleBuffer 5 hm5, hlen, hchunk]
      rfl

/-- Witness for `C5_resegmentation`: the whole round trip on the test
buffer at 0.3 s, re-split at 0.5 s. -/
theorem C5_resegmentation_witness :
    concatTrackBuffer (splitAudioIntoSegments (3 / 10) sampleBuffer) =
      { numberOfChannels := sampleBuffer.numberOfChannels, length := sampleBuffer.length,
        sampleRate := sampleBuffer.sampleRate, channels := sampleBuffer.channels } ∧
    ((splitAudioIntoSegments (1 / 2)
        (concatTrackBuffer (splitAudioIntoSegments (3 / 10) sampleBuffer))).map
      (fun sg => sg.buffer.length)).sum = sampleBuffer.length := by
  have hwf : ∀ ch ∈ sampleBuffer.channels, ch.length = sampleBuffer.length := by
    intro ch hch
    simp only [sampleBuffer, List.mem_singleton] at hch
    subst hch
    rfl
  have hne : splitAudioIntoSegments (3 / 10) sampleBuffer ≠ [] := by
    intro h
    have h4 := track0_length
    rw [h] at h4
    simp at h4
  have H := C5_resegmentation.1 sampleBuffer (3 / 10) 3 (by norm_num)
    (by norm_num [sampleBuffer]) rfl hwf hne
  exact ⟨H.1, H.2 (1 / 2) 5 (by norm_num) (by norm_num [sampleBuffer])⟩
